import Mathlib

/-!
QtLocation: the declarative Location element and the place manager

A shallow embedding of

* `src/imports/location/qdeclarativegeolocation.cpp` (`QDeclarativeGeoLocation`), and
* `src/location/places/qplacemanager.cpp` (`QPlaceManager`),

followed by the properties of the two classes.

Part I: object heap

The Location element holds three nullable pointers to `QObject`-derived
sub-objects.  A pointer is `Option Nat` (`none` is the null pointer); the
objects of one class live in a heap of their own (a C++ pointer to a
`QDeclarativeGeoAddress` never equals a pointer to a `QDeclarativeCoordinate`),
and a fourth heap holds the objects of every other class.  An object records
its `QObject::parent()`, the value it wraps and whether it has been
destroyed.  The parent of an object is any object of the four heaps (`Ref`),
so the heaps form the object trees of Qt.  `new` appends to a heap.  `delete`
runs the destructor of `QObject`, which destroys the object and, recursively,
its children: the object and all its descendants are marked destroyed.
Reading through a pointer to a destroyed object is undefined in C++; the
embedding is total and reads the last stored record.
-/

namespace QtLocation

/-- The identity of a `QObject` (the value of a `QObject *`): a sub-object of
one of the three classes the Location element points to, by its position in
the heap of its class, or an object of any other class, by its position in the
heap of the other objects.  A position beyond the end of the heap of the other
objects is an object the model knows nothing about: it has no parent and is
never destroyed. -/
inductive Ref where
  | object (id : Nat)
  | address (p : Nat)
  | coordinate (p : Nat)
  | rectangle (p : Nat)
deriving DecidableEq, Repr

/-- One `QObject`-derived object wrapping a plain value of type `V`. -/
structure QObj (V : Type) where
  /-- The result of `QObject::parent()`: the identity of the parent object, `none` for a null parent. -/
  parent : Option Ref
  /-- The plain value the object wraps. -/
  contents : V
  /-- Cleared by `delete`. -/
  alive : Bool
deriving DecidableEq, Repr

/-- The objects of one class, addressed by position. -/
abbrev Heap (V : Type) := List (QObj V)

namespace Heap

variable {V : Type}

/-- The call `p->parent()`. -/
def parentOf (h : Heap V) (p : Nat) : Option Ref :=
  match h[p]? with
  | some o => o.parent
  | none => none

/-- The objects at the positions `start`, `start + 1`, ... : every object whose
position satisfies `dead` is marked destroyed. -/
def destroyFrom (dead : Nat → Bool) : Nat → Heap V → Heap V
  | _, [] => []
  | i, o :: h => (if dead i then { o with alive := false } else o) :: destroyFrom dead (i + 1) h

/-- What a `delete` does to one heap: every object whose position satisfies
`dead` is marked destroyed. -/
def destroyWhere (h : Heap V) (dead : Nat → Bool) : Heap V :=
  destroyFrom dead 0 h

/-- The expression `new T(v, parent)`: the heap with the fresh object, and the pointer to it. -/
def alloc (h : Heap V) (v : V) (parent : Ref) : Heap V × Nat :=
  (h ++ [{ parent := some parent, contents := v, alive := true }], h.length)

/-- Modelled from the spec: the value setter of a sub-object
(`QDeclarativeGeoAddress::setAddress`, `QDeclarativeCoordinate::setCoordinate`,
`QDeclarativeGeoRectangle::setRectangle`), defined in the source files of the
sub-object classes; the spec says of it "its contents are overwritten". -/
def write (h : Heap V) (p : Nat) (v : V) : Heap V :=
  match h[p]? with
  | some o => h.set p { o with contents := v }
  | none => h

/-- Modelled from the spec: the value getter of a sub-object
(`QDeclarativeGeoAddress::address`, `QDeclarativeCoordinate::coordinate`,
`QDeclarativeGeoRectangle::rectangle`), defined in the source files of the
sub-object classes; it returns the contents of the sub-object. -/
def read [Inhabited V] (h : Heap V) (p : Nat) : V :=
  match h[p]? with
  | some o => o.contents
  | none => default

/-- The pointer refers to an object that exists and has not been destroyed. -/
def live (h : Heap V) (p : Nat) : Bool :=
  match h[p]? with
  | some o => o.alive
  | none => false

/-- The pointer refers to an object that has been destroyed. -/
def destroyed (h : Heap V) (p : Nat) : Bool :=
  match h[p]? with
  | some o => !o.alive
  | none => false

end Heap

/-!
Part II: `QDeclarativeGeoLocation`
-/

/-- Modelled from the spec: the plain location value `QGeoLocation` (declared
in `qgeolocation.h`), "a plain value triple" of an address, a coordinate and a
bounding box.  The three value types `QGeoAddress`, `QGeoCoordinate` and
`QGeoRectangle` are parameters `A`, `C`, `R`; their default constructors are
the `Inhabited` defaults. -/
structure QGeoLocation (A C R : Type) where
  address : A
  coordinate : C
  boundingBox : R
deriving DecidableEq, Repr

instance {A C R : Type} [Inhabited A] [Inhabited C] [Inhabited R] :
    Inhabited (QGeoLocation A C R) :=
  ⟨{ address := default, coordinate := default, boundingBox := default }⟩

/-- The three notifier signals of the Location element. -/
inductive LocationSignal where
  | addressChanged
  | coordinateChanged
  | boundingBoxChanged
deriving DecidableEq, Repr

/-- A Location element together with the heaps of all objects and the
log of the signals it has emitted (oldest first). -/
structure QDeclarativeGeoLocation (A C R : Type) where
  /-- The identity of the element itself, the value of `this`. -/
  self : Nat
  m_address : Option Nat
  m_coordinate : Option Nat
  m_boundingBox : Option Nat
  /-- All `QDeclarativeGeoAddress` objects. -/
  addresses : Heap A
  /-- All `QDeclarativeCoordinate` objects. -/
  coordinates : Heap C
  /-- All `QDeclarativeGeoRectangle` objects. -/
  rectangles : Heap R
  /-- All objects of other classes. -/
  objects : Heap Unit
  /-- The signals emitted so far. -/
  emitted : List LocationSignal
deriving DecidableEq, Repr

namespace QDeclarativeGeoLocation

variable {A C R : Type}

/-- The condition `m_address && m_address->parent() == this`. -/
def addressOwned (s : QDeclarativeGeoLocation A C R) : Bool :=
  match s.m_address with
  | some p => decide (s.addresses.parentOf p = some (Ref.object s.self))
  | none => false

/-- The condition `!m_address || m_address->parent() != this`. -/
def addressNotOwned (s : QDeclarativeGeoLocation A C R) : Bool :=
  match s.m_address with
  | some p => decide (s.addresses.parentOf p ≠ some (Ref.object s.self))
  | none => true

/-- The condition `m_coordinate && m_coordinate->parent() == this`. -/
def coordinateOwned (s : QDeclarativeGeoLocation A C R) : Bool :=
  match s.m_coordinate with
  | some p => decide (s.coordinates.parentOf p = some (Ref.object s.self))
  | none => false

/-- The condition `!m_coordinate || m_coordinate->parent() != this`. -/
def coordinateNotOwned (s : QDeclarativeGeoLocation A C R) : Bool :=
  match s.m_coordinate with
  | some p => decide (s.coordinates.parentOf p ≠ some (Ref.object s.self))
  | none => true

/-- The condition `m_boundingBox && m_boundingBox->parent() == this`. -/
def boundingBoxOwned (s : QDeclarativeGeoLocation A C R) : Bool :=
  match s.m_boundingBox with
  | some p => decide (s.rectangles.parentOf p = some (Ref.object s.self))
  | none => false

/-- The condition `!m_boundingBox || m_boundingBox->parent() != this`. -/
def boundingBoxNotOwned (s : QDeclarativeGeoLocation A C R) : Bool :=
  match s.m_boundingBox with
  | some p => decide (s.rectangles.parentOf p ≠ some (Ref.object s.self))
  | none => true

/-- The first `if`/`else if` of `setLocation` (lines 111-116). -/
def setLocationAddress (s : QDeclarativeGeoLocation A C R) (v : A) :
    QDeclarativeGeoLocation A C R :=
  if s.addressOwned then
    match s.m_address with
    | some p => { s with addresses := s.addresses.write p v }
    | none => s
  else if s.addressNotOwned then
    { s with
      addresses := (s.addresses.alloc v (Ref.object s.self)).1
      m_address := some (s.addresses.alloc v (Ref.object s.self)).2
      emitted := s.emitted ++ [LocationSignal.addressChanged] }
  else s

/-- The second `if`/`else if` of `setLocation` (lines 118-123). -/
def setLocationCoordinate (s : QDeclarativeGeoLocation A C R) (v : C) :
    QDeclarativeGeoLocation A C R :=
  if s.coordinateOwned then
    match s.m_coordinate with
    | some p => { s with coordinates := s.coordinates.write p v }
    | none => s
  else if s.coordinateNotOwned then
    { s with
      coordinates := (s.coordinates.alloc v (Ref.object s.self)).1
      m_coordinate := some (s.coordinates.alloc v (Ref.object s.self)).2
      emitted := s.emitted ++ [LocationSignal.coordinateChanged] }
  else s

/-- The third `if`/`else if` of `setLocation` (lines 125-130). -/
def setLocationBoundingBox (s : QDeclarativeGeoLocation A C R) (v : R) :
    QDeclarativeGeoLocation A C R :=
  if s.boundingBoxOwned then
    match s.m_boundingBox with
    | some p => { s with rectangles := s.rectangles.write p v }
    | none => s
  else if s.boundingBoxNotOwned then
    { s with
      rectangles := (s.rectangles.alloc v (Ref.object s.self)).1
      m_boundingBox := some (s.rectangles.alloc v (Ref.object s.self)).2
      emitted := s.emitted ++ [LocationSignal.boundingBoxChanged] }
  else s

/-- `void QDeclarativeGeoLocation::setLocation(const QGeoLocation &src)`. -/
def setLocation (s : QDeclarativeGeoLocation A C R) (src : QGeoLocation A C R) :
    QDeclarativeGeoLocation A C R :=
  ((s.setLocationAddress src.address).setLocationCoordinate src.coordinate).setLocationBoundingBox
    src.boundingBox

/-- `QGeoLocation QDeclarativeGeoLocation::location()`: the returned value and
the state after the call. -/
def location [Inhabited A] [Inhabited C] [Inhabited R] (s : QDeclarativeGeoLocation A C R) :
    QGeoLocation A C R × QDeclarativeGeoLocation A C R :=
  ({ address :=
       match s.m_address with
       | some p => s.addresses.read p
       | none => default
     coordinate :=
       match s.m_coordinate with
       | some p => s.coordinates.read p
       | none => default
     boundingBox :=
       match s.m_boundingBox with
       | some p => s.rectangles.read p
       | none => default },
   s)

/-- The call `r->parent()` for an object of any class. -/
def parentOfRef (s : QDeclarativeGeoLocation A C R) : Ref → Option Ref
  | Ref.object n => s.objects.parentOf n
  | Ref.address p => s.addresses.parentOf p
  | Ref.coordinate p => s.coordinates.parentOf p
  | Ref.rectangle p => s.rectangles.parentOf p

/-- The object `r` belongs to the tree below `root`: it is `root`, or `root` is
one of its first `n` ancestors. -/
def inTree (s : QDeclarativeGeoLocation A C R) (root : Ref) : Nat → Ref → Bool
  | 0, r => decide (r = root)
  | n + 1, r =>
    decide (r = root) ||
      match s.parentOfRef r with
      | some q => inTree s root n q
      | none => false

/-- The number of objects in the four heaps.  A chain of parents without
repetition has at most this many links, so this many ancestors decide whether
an object belongs to a tree (`inTree_size`). -/
def size (s : QDeclarativeGeoLocation A C R) : Nat :=
  s.objects.length + s.addresses.length + s.coordinates.length + s.rectangles.length

/-- The `k`-th ancestor of `r`: `r` itself for `k = 0`, its parent for `k = 1`. -/
def ancestor (s : QDeclarativeGeoLocation A C R) : Nat → Ref → Option Ref
  | 0, r => some r
  | k + 1, r =>
    match s.parentOfRef r with
    | some q => ancestor s k q
    | none => none

/-- The position of an object when the four heaps are laid end to end. -/
def position (s : QDeclarativeGeoLocation A C R) : Ref → Nat
  | Ref.object n => n
  | Ref.address p => s.objects.length + p
  | Ref.coordinate p => s.objects.length + s.addresses.length + p
  | Ref.rectangle p => s.objects.length + s.addresses.length + s.coordinates.length + p

/-- The statement `delete root`: the destructor of `QObject` destroys the
object and its children, which destroy theirs; every object of the tree below
`root` is marked destroyed. -/
def delete (s : QDeclarativeGeoLocation A C R) (root : Ref) : QDeclarativeGeoLocation A C R :=
  { s with
    addresses := s.addresses.destroyWhere (fun q => s.inTree root s.size (Ref.address q))
    coordinates := s.coordinates.destroyWhere (fun q => s.inTree root s.size (Ref.coordinate q))
    rectangles := s.rectangles.destroyWhere (fun q => s.inTree root s.size (Ref.rectangle q))
    objects := s.objects.destroyWhere (fun q => s.inTree root s.size (Ref.object q)) }

/-- `void QDeclarativeGeoLocation::setAddress(QDeclarativeGeoAddress *address)`. -/
def setAddress (s : QDeclarativeGeoLocation A C R) (address : Option Nat) :
    QDeclarativeGeoLocation A C R :=
  if s.m_address = address then s
  else
    let s1 :=
      if s.addressOwned then
        match s.m_address with
        | some p => s.delete (Ref.address p)
        | none => s
      else s
    { s1 with m_address := address, emitted := s1.emitted ++ [LocationSignal.addressChanged] }

/-- `QDeclarativeGeoAddress *QDeclarativeGeoLocation::address()`. -/
def address (s : QDeclarativeGeoLocation A C R) : Option Nat := s.m_address

/-- `void QDeclarativeGeoLocation::setCoordinate(QDeclarativeCoordinate *coordinate)`. -/
def setCoordinate (s : QDeclarativeGeoLocation A C R) (coordinate : Option Nat) :
    QDeclarativeGeoLocation A C R :=
  if s.m_coordinate = coordinate then s
  else
    let s1 :=
      if s.coordinateOwned then
        match s.m_coordinate with
        | some p => s.delete (Ref.coordinate p)
        | none => s
      else s
    { s1 with m_coordinate := coordinate, emitted := s1.emitted ++ [LocationSignal.coordinateChanged] }

/-- `QDeclarativeCoordinate *QDeclarativeGeoLocation::coordinate()`. -/
def coordinate (s : QDeclarativeGeoLocation A C R) : Option Nat := s.m_coordinate

/-- `void QDeclarativeGeoLocation::setBoundingBox(QDeclarativeGeoRectangle *boundingBox)`. -/
def setBoundingBox (s : QDeclarativeGeoLocation A C R) (boundingBox : Option Nat) :
    QDeclarativeGeoLocation A C R :=
  if s.m_boundingBox = boundingBox then s
  else
    let s1 :=
      if s.boundingBoxOwned then
        match s.m_boundingBox with
        | some p => s.delete (Ref.rectangle p)
        | none => s
      else s
    { s1 with m_boundingBox := boundingBox, emitted := s1.emitted ++ [LocationSignal.boundingBoxChanged] }

/-- `QDeclarativeGeoRectangle *QDeclarativeGeoLocation::boundingBox()`. -/
def boundingBox (s : QDeclarativeGeoLocation A C R) : Option Nat := s.m_boundingBox

/-- The member initialisers `m_address(0), m_coordinate(0), m_boundingBox(0)` of
both constructors: a new element with identity `self`, created next to the
objects that already exist. -/
def init (self : Nat) (addresses : Heap A) (coordinates : Heap C) (rectangles : Heap R)
    (objects : Heap Unit) : QDeclarativeGeoLocation A C R :=
  { self := self
    m_address := none
    m_coordinate := none
    m_boundingBox := none
    addresses := addresses
    coordinates := coordinates
    rectangles := rectangles
    objects := objects
    emitted := [] }

/-- `QDeclarativeGeoLocation::QDeclarativeGeoLocation(QObject *parent)`. -/
def construct [Inhabited A] [Inhabited C] [Inhabited R] (self : Nat) (addresses : Heap A)
    (coordinates : Heap C) (rectangles : Heap R) (objects : Heap Unit) :
    QDeclarativeGeoLocation A C R :=
  (init self addresses coordinates rectangles objects).setLocation default

/-- `QDeclarativeGeoLocation::QDeclarativeGeoLocation(const QGeoLocation &src, QObject *parent)`. -/
def constructFrom (src : QGeoLocation A C R) (self : Nat) (addresses : Heap A)
    (coordinates : Heap C) (rectangles : Heap R) (objects : Heap Unit) :
    QDeclarativeGeoLocation A C R :=
  (init self addresses coordinates rectangles objects).setLocation src

/-- How many times `sig` was emitted between the state `before` and the later state `after`. -/
def raised (before after : QDeclarativeGeoLocation A C R) (sig : LocationSignal) : Nat :=
  after.emitted.count sig - before.emitted.count sig

/-- Every non-null field points to an object that exists and has not been destroyed. -/
def fieldsLive (s : QDeclarativeGeoLocation A C R) : Bool :=
  (match s.m_address with
    | some p => s.addresses.live p
    | none => true) &&
  (match s.m_coordinate with
    | some p => s.coordinates.live p
    | none => true) &&
  (match s.m_boundingBox with
    | some p => s.rectangles.live p
    | none => true)

/-- The object `r` is below the Location element in the object tree: the
element is its parent or a further ancestor (or `r` is the element itself). -/
def belowLocation (s : QDeclarativeGeoLocation A C R) (r : Ref) : Prop :=
  ∃ n, s.inTree (Ref.object s.self) n r = true

/-- Every object outside the tree below `root` has in `s'` the record it has
in `s`. -/
def unchangedOutside (s s' : QDeclarativeGeoLocation A C R) (root : Ref) : Prop :=
  (∀ q, s.inTree root s.size (Ref.address q) = false → s'.addresses[q]? = s.addresses[q]?) ∧
  (∀ q, s.inTree root s.size (Ref.coordinate q) = false →
    s'.coordinates[q]? = s.coordinates[q]?) ∧
  (∀ q, s.inTree root s.size (Ref.rectangle q) = false →
    s'.rectangles[q]? = s.rectangles[q]?) ∧
  (∀ q, s.inTree root s.size (Ref.object q) = false → s'.objects[q]? = s.objects[q]?)

/-- The state `s'` comes after `s`: it is a state of the same element, no heap
has shrunk, every object has the parent it had in `s`, and an object that did
not exist in `s` has the element as parent. -/
def Later (s s' : QDeclarativeGeoLocation A C R) : Prop :=
  s'.self = s.self ∧
  (∀ q, s'.objects.parentOf q = s.objects.parentOf q) ∧
  (s.addresses.length ≤ s'.addresses.length ∧
    ∀ q, s'.addresses.parentOf q = s.addresses.parentOf q ∨
      (s.addresses.length ≤ q ∧ s'.addresses.parentOf q = some (Ref.object s.self))) ∧
  (s.coordinates.length ≤ s'.coordinates.length ∧
    ∀ q, s'.coordinates.parentOf q = s.coordinates.parentOf q ∨
      (s.coordinates.length ≤ q ∧ s'.coordinates.parentOf q = some (Ref.object s.self))) ∧
  (s.rectangles.length ≤ s'.rectangles.length ∧
    ∀ q, s'.rectangles.parentOf q = s.rectangles.parentOf q ∨
      (s.rectangles.length ≤ q ∧ s'.rectangles.parentOf q = some (Ref.object s.self)))

end QDeclarativeGeoLocation

/-- One call of the public interface of the Location element. -/
inductive Call (A C R : Type) where
  | setLocation (src : QGeoLocation A C R)
  | setAddress (address : Option Nat)
  | setCoordinate (coordinate : Option Nat)
  | setBoundingBox (boundingBox : Option Nat)
deriving DecidableEq, Repr

namespace QDeclarativeGeoLocation

variable {A C R : Type}

/-- The state after one call. -/
def apply (s : QDeclarativeGeoLocation A C R) : Call A C R → QDeclarativeGeoLocation A C R
  | Call.setLocation src => s.setLocation src
  | Call.setAddress p => s.setAddress p
  | Call.setCoordinate p => s.setCoordinate p
  | Call.setBoundingBox p => s.setBoundingBox p

/-- The state after a sequence of calls, first call first. -/
def run (s : QDeclarativeGeoLocation A C R) (cs : List (Call A C R)) :
    QDeclarativeGeoLocation A C R :=
  cs.foldl apply s

end QDeclarativeGeoLocation
/-!
Part III: `QPlaceManager`

The manager forwards every operation to its engine `d` and relays the signals
of the engine through the connections made in its constructor.  The engine is
a plugin: what it returns and which signals it emits while
it executes an operation are inputs of the model (`Response`).

Signal delivery follows the connection types of Qt in the single-threaded
setting of the spec (section 5): a connection made without a type argument
(`Qt::AutoConnection`, sender and receiver in one thread) invokes the receiver
at the point of emission, on the call stack of the emitter; a
`Qt::QueuedConnection` posts the call to the event queue of the receiver, and
the event loop delivers it in a later turn.  When the receiver is a signal, as
in every connection of the constructor, invoking it emits that signal: the
listeners of the manager observe it.  A connection passes the arguments named
in its signature.
-/

/-- The signals named in the constructor of `QPlaceManager`. -/
inductive SignalName where
  | finished
  | error
  | placeAdded
  | placeUpdated
  | placeRemoved
  | categoryAdded
  | categoryUpdated
  | categoryRemoved
deriving DecidableEq, Repr

/-- The parameter types written in the `SIGNAL(...)` signatures of the constructor. -/
inductive ParamType where
  | QPlaceReplyPtr
  | QPlaceReplyError
  | QString
  | QPlaceCategory
deriving DecidableEq, Repr

/-- A signature as written inside `SIGNAL(...)`. -/
structure Signature where
  name : SignalName
  params : List ParamType
deriving DecidableEq, Repr

/-- The values of `Qt::ConnectionType` the constructor uses; `AutoConnection` is
the default of `QObject::connect`. -/
inductive ConnectionType where
  | AutoConnection
  | QueuedConnection
deriving DecidableEq, Repr

/-- One `connect(sender, SIGNAL(signal), receiver, SIGNAL(method), type)`. -/
structure Connection where
  sender : Nat
  signal : Signature
  receiver : Nat
  method : Signature
  type : ConnectionType
deriving DecidableEq, Repr

/-- An argument value of a signal. -/
inductive Arg where
  | reply (handle : Nat)
  | error (code : Nat)
  | string (text : String)
  | category (c : Nat)
deriving DecidableEq, Repr

/-- Modelled from the spec: a signal emission of the engine (`QPlaceManagerEngine`
is declared in `qplacemanagerengine.h`).  The engine must "emit finished/error events
per request, and emit store-change events per mutation"; the parameters are
those of the signatures in the constructor, and `error` has the third
parameter `errorString` documented for `QPlaceManager::error`. -/
inductive EngineSignal where
  | finished (reply : Nat)
  | error (reply : Nat) (error : Nat) (errorString : String)
  | placeAdded (placeId : String)
  | placeUpdated (placeId : String)
  | placeRemoved (placeId : String)
  | categoryAdded (category : Nat) (parentId : String)
  | categoryUpdated (category : Nat) (parentId : String)
  | categoryRemoved (categoryId : String) (parentId : String)
deriving DecidableEq, Repr

namespace EngineSignal

/-- The name of the emitted signal. -/
def name : EngineSignal → SignalName
  | finished _ => SignalName.finished
  | error _ _ _ => SignalName.error
  | placeAdded _ => SignalName.placeAdded
  | placeUpdated _ => SignalName.placeUpdated
  | placeRemoved _ => SignalName.placeRemoved
  | categoryAdded _ _ => SignalName.categoryAdded
  | categoryUpdated _ _ => SignalName.categoryUpdated
  | categoryRemoved _ _ => SignalName.categoryRemoved

/-- The arguments of the emission, in order. -/
def args : EngineSignal → List Arg
  | finished r => [Arg.reply r]
  | error r e t => [Arg.reply r, Arg.error e, Arg.string t]
  | placeAdded i => [Arg.string i]
  | placeUpdated i => [Arg.string i]
  | placeRemoved i => [Arg.string i]
  | categoryAdded c i => [Arg.category c, Arg.string i]
  | categoryUpdated c i => [Arg.category c, Arg.string i]
  | categoryRemoved c i => [Arg.string c, Arg.string i]

/-- The six "data store changed" signals. -/
def isStoreChange (e : EngineSignal) : Bool :=
  match e.name with
  | SignalName.finished => false
  | SignalName.error => false
  | _ => true

end EngineSignal

/-- The operations `QPlaceManager` forwards to its engine, with their arguments. -/
inductive Request where
  | managerName
  | managerVersion
  | getPlaceDetails (placeId : String)
  | getContent (place : Nat) (request : Nat)
  | search (request : Nat)
  | recommendations (place : Nat) (request : Nat)
  | textPredictions (request : Nat)
  | savePlace (place : Nat)
  | removePlace (placeId : String)
  | saveCategory (category : Nat) (parentId : String)
  | removeCategory (categoryId : String)
  | initializeCategories
  | parentCategoryId (categoryId : String)
  | childrenCategoryIds (categoryId : String)
  | category (categoryId : String)
  | childCategories (parentId : String)
  | locale
  | setLocale (locale : Nat)
  | supportedFeatures
deriving DecidableEq, Repr

/-- What the engine does with one operation: the value it returns and the
signals it emits before it returns. -/
structure Response where
  result : Nat
  emits : List EngineSignal
deriving DecidableEq, Repr

/-- A signal of a receiver as its listeners see it. -/
structure Observation where
  /-- The object whose signal was emitted. -/
  receiver : Nat
  name : SignalName
  args : List Arg
  /-- The turn of the event loop in which the listeners ran. -/
  turn : Nat
  /-- The engine operations that were executing when the listeners ran, innermost first. -/
  callStack : List Request
deriving DecidableEq, Repr

/-- A call posted to the event queue of `receiver` by a queued connection. -/
structure PostedEvent where
  receiver : Nat
  name : SignalName
  args : List Arg
deriving DecidableEq, Repr

/-- The run-time context of the manager. -/
structure World where
  /-- The pairs (object, parent) set by `QObject::setParent`, latest first. -/
  parents : List (Nat × Nat)
  /-- The type names registered with `qRegisterMetaType`. -/
  metaTypes : List String
  /-- The signal connections, in the order they were made. -/
  connections : List Connection
  /-- The operations invoked on engines so far: (engine, operation). -/
  engineCalls : List (Nat × Request)
  /-- The engine operations currently executing, innermost first. -/
  callStack : List Request
  /-- The current turn of the event loop. -/
  turn : Nat
  /-- The event queue, oldest first. -/
  posted : List PostedEvent
  /-- What listeners have observed, oldest first. -/
  observed : List Observation
deriving DecidableEq, Repr

namespace World

/-- The result of `QObject::parent()` for `obj`. -/
def parentOf (w : World) (obj : Nat) : Option Nat := w.parents.lookup obj

/-- The call `obj->setParent(parent)`. -/
def setParent (w : World) (obj parent : Nat) : World :=
  { w with parents := (obj, parent) :: w.parents }

/-- The call `qRegisterMetaType<T>(typeName)`. -/
def registerMetaType (w : World) (typeName : String) : World :=
  { w with metaTypes := w.metaTypes ++ [typeName] }

/-- The call `connect(sender, SIGNAL(signal), receiver, SIGNAL(method), type)`. -/
def connect (w : World) (sender : Nat) (signal : Signature) (receiver : Nat)
    (method : Signature) (type : ConnectionType) : World :=
  { w with connections := w.connections ++
      [{ sender := sender, signal := signal, receiver := receiver, method := method,
         type := type }] }

/-- One connection reacts to an emission of its sender. -/
def activate (w : World) (c : Connection) (e : EngineSignal) : World :=
  match c.type with
  | ConnectionType.AutoConnection =>
    { w with observed := w.observed ++
        [{ receiver := c.receiver, name := c.method.name,
           args := e.args.take c.method.params.length, turn := w.turn,
           callStack := w.callStack }] }
  | ConnectionType.QueuedConnection =>
    { w with posted := w.posted ++
        [{ receiver := c.receiver, name := c.method.name,
           args := e.args.take c.method.params.length }] }

/-- The object `sender` emits `e`: every connection of that signal of that
sender reacts, in connection order. -/
def emit (w : World) (sender : Nat) (e : EngineSignal) : World :=
  (w.connections.filter (fun c => decide (c.sender = sender ∧ c.signal.name = e.name))).foldl
    (fun w c => w.activate c e) w

/-- One turn of the event loop: the posted calls are delivered, oldest first. -/
def processEvents (w : World) : World :=
  { w with
    turn := w.turn + 1
    posted := []
    observed := w.observed ++ w.posted.map (fun ev =>
      { receiver := ev.receiver, name := ev.name, args := ev.args, turn := w.turn + 1,
        callStack := w.callStack }) }

/-- What the listeners of `receiver` have observed. -/
def observedBy (w : World) (receiver : Nat) : List Observation :=
  w.observed.filter (fun o => decide (o.receiver = receiver))

/-- The posted calls waiting for `receiver`. -/
def postedTo (w : World) (receiver : Nat) : List PostedEvent :=
  w.posted.filter (fun ev => decide (ev.receiver = receiver))

end World

/-- A place manager: its own identity and the engine pointer `d`.  The
constructor does not return when the engine is null, so `d` is an object. -/
structure QPlaceManager where
  /-- The value of `this`. -/
  self : Nat
  /-- The member `d`. -/
  d : Nat
deriving DecidableEq, Repr

namespace QPlaceManager

/-- The message passed to `qFatal`. -/
def fatalMessage : String :=
  "The place manager engine that was set for this place manager was NULL."

/-- `QPlaceManager::QPlaceManager(QPlaceManagerEngine *engine, QObject *parent)`:
the manager, or the message of `qFatal`, and the world the constructor leaves. -/
def construct (w : World) (self : Nat) (engine : Option Nat) : Except String QPlaceManager × World :=
  match engine with
  | some d =>
    let w := w.setParent d self
    let w := w.registerMetaType "QPlaceCategory"
    let w := w.connect d ⟨SignalName.finished, [ParamType.QPlaceReplyPtr]⟩
      self ⟨SignalName.finished, [ParamType.QPlaceReplyPtr]⟩ ConnectionType.AutoConnection
    let w := w.connect d ⟨SignalName.error, [ParamType.QPlaceReplyPtr, ParamType.QPlaceReplyError]⟩
      self ⟨SignalName.error, [ParamType.QPlaceReplyPtr, ParamType.QPlaceReplyError]⟩
      ConnectionType.AutoConnection
    let w := w.connect d ⟨SignalName.placeAdded, [ParamType.QString]⟩
      self ⟨SignalName.placeAdded, [ParamType.QString]⟩ ConnectionType.QueuedConnection
    let w := w.connect d ⟨SignalName.placeUpdated, [ParamType.QString]⟩
      self ⟨SignalName.placeUpdated, [ParamType.QString]⟩ ConnectionType.QueuedConnection
    let w := w.connect d ⟨SignalName.placeRemoved, [ParamType.QString]⟩
      self ⟨SignalName.placeRemoved, [ParamType.QString]⟩ ConnectionType.QueuedConnection
    let w := w.connect d ⟨SignalName.categoryAdded, [ParamType.QPlaceCategory, ParamType.QString]⟩
      self ⟨SignalName.categoryAdded, [ParamType.QPlaceCategory, ParamType.QString]⟩
      ConnectionType.QueuedConnection
    let w := w.connect d ⟨SignalName.categoryUpdated, [ParamType.QPlaceCategory, ParamType.QString]⟩
      self ⟨SignalName.categoryUpdated, [ParamType.QPlaceCategory, ParamType.QString]⟩
      ConnectionType.QueuedConnection
    let w := w.connect d ⟨SignalName.categoryRemoved, [ParamType.QString, ParamType.QString]⟩
      self ⟨SignalName.categoryRemoved, [ParamType.QString, ParamType.QString]⟩
      ConnectionType.QueuedConnection
    (Except.ok { self := self, d := d }, w)
  | none => (Except.error fatalMessage, w)

/-- The body `return d->operation(arguments);` shared by the forwarding
methods: the engine executes `req`, emitting `resp.emits` on the way, and its
result is returned.  The third component is the manager after the call. -/
def delegate (m : QPlaceManager) (w : World) (req : Request) (resp : Response) :
    Nat × World × QPlaceManager :=
  let w1 := { w with engineCalls := w.engineCalls ++ [(m.d, req)], callStack := req :: w.callStack }
  let w2 := resp.emits.foldl (fun w e => w.emit m.d e) w1
  (resp.result, { w2 with callStack := w2.callStack.tail }, m)

/-- `QString QPlaceManager::managerName() const`. -/
def managerName (m : QPlaceManager) (w : World) (resp : Response) :=
  m.delegate w Request.managerName resp

/-- `int QPlaceManager::managerVersion() const`. -/
def managerVersion (m : QPlaceManager) (w : World) (resp : Response) :=
  m.delegate w Request.managerVersion resp

/-- `QPlaceDetailsReply *QPlaceManager::getPlaceDetails(const QString &placeId) const`. -/
def getPlaceDetails (m : QPlaceManager) (w : World) (placeId : String) (resp : Response) :=
  m.delegate w (Request.getPlaceDetails placeId) resp

/-- `QPlaceContentReply *QPlaceManager::getContent(place, request) const`. -/
def getContent (m : QPlaceManager) (w : World) (place request : Nat) (resp : Response) :=
  m.delegate w (Request.getContent place request) resp

/-- `QPlaceSearchReply *QPlaceManager::search(const QPlaceSearchRequest &request) const`. -/
def search (m : QPlaceManager) (w : World) (request : Nat) (resp : Response) :=
  m.delegate w (Request.search request) resp

/-- `QPlaceSearchReply *QPlaceManager::recommendations(place, request) const`. -/
def recommendations (m : QPlaceManager) (w : World) (place request : Nat) (resp : Response) :=
  m.delegate w (Request.recommendations place request) resp

/-- `QPlaceTextPredictionReply *QPlaceManager::textPredictions(request) const`. -/
def textPredictions (m : QPlaceManager) (w : World) (request : Nat) (resp : Response) :=
  m.delegate w (Request.textPredictions request) resp

/-- `QPlaceIdReply *QPlaceManager::savePlace(const QPlace &place)`. -/
def savePlace (m : QPlaceManager) (w : World) (place : Nat) (resp : Response) :=
  m.delegate w (Request.savePlace place) resp

/-- `QPlaceIdReply *QPlaceManager::removePlace(const QString &placeId)`. -/
def removePlace (m : QPlaceManager) (w : World) (placeId : String) (resp : Response) :=
  m.delegate w (Request.removePlace placeId) resp

/-- `QPlaceIdReply *QPlaceManager::saveCategory(category, parentId)`. -/
def saveCategory (m : QPlaceManager) (w : World) (category : Nat) (parentId : String)
    (resp : Response) :=
  m.delegate w (Request.saveCategory category parentId) resp

/-- `QPlaceIdReply *QPlaceManager::removeCategory(const QString &categoryId)`. -/
def removeCategory (m : QPlaceManager) (w : World) (categoryId : String) (resp : Response) :=
  m.delegate w (Request.removeCategory categoryId) resp

/-- `QPlaceReply *QPlaceManager::initializeCategories()`. -/
def initializeCategories (m : QPlaceManager) (w : World) (resp : Response) :=
  m.delegate w Request.initializeCategories resp

/-- `QString QPlaceManager::parentCategoryId(const QString &categoryId) const`. -/
def parentCategoryId (m : QPlaceManager) (w : World) (categoryId : String) (resp : Response) :=
  m.delegate w (Request.parentCategoryId categoryId) resp

/-- `QStringList QPlaceManager::childrenCategoryIds(const QString &categoryId) const`. -/
def childrenCategoryIds (m : QPlaceManager) (w : World) (categoryId : String) (resp : Response) :=
  m.delegate w (Request.childrenCategoryIds categoryId) resp

/-- `QPlaceCategory QPlaceManager::category(const QString &categoryId) const`. -/
def category (m : QPlaceManager) (w : World) (categoryId : String) (resp : Response) :=
  m.delegate w (Request.category categoryId) resp

/-- `QList<QPlaceCategory> QPlaceManager::childCategories(const QString &parentId) const`. -/
def childCategories (m : QPlaceManager) (w : World) (parentId : String) (resp : Response) :=
  m.delegate w (Request.childCategories parentId) resp

/-- `QLocale QPlaceManager::locale() const`. -/
def locale (m : QPlaceManager) (w : World) (resp : Response) :=
  m.delegate w Request.locale resp

/-- `void QPlaceManager::setLocale(const QLocale &locale)`. -/
def setLocale (m : QPlaceManager) (w : World) (locale : Nat) (resp : Response) :=
  m.delegate w (Request.setLocale locale) resp

/-- `QPlaceManager::ManagerFeatures QPlaceManager::supportedFeatures() const`. -/
def supportedFeatures (m : QPlaceManager) (w : World) (resp : Response) :=
  m.delegate w Request.supportedFeatures resp

/-- The public method that forwards `req`. -/
def call (m : QPlaceManager) (w : World) (req : Request) (resp : Response) :
    Nat × World × QPlaceManager :=
  match req with
  | Request.managerName => m.managerName w resp
  | Request.managerVersion => m.managerVersion w resp
  | Request.getPlaceDetails placeId => m.getPlaceDetails w placeId resp
  | Request.getContent place request => m.getContent w place request resp
  | Request.search request => m.search w request resp
  | Request.recommendations place request => m.recommendations w place request resp
  | Request.textPredictions request => m.textPredictions w request resp
  | Request.savePlace place => m.savePlace w place resp
  | Request.removePlace placeId => m.removePlace w placeId resp
  | Request.saveCategory category parentId => m.saveCategory w category parentId resp
  | Request.removeCategory categoryId => m.removeCategory w categoryId resp
  | Request.initializeCategories => m.initializeCategories w resp
  | Request.parentCategoryId categoryId => m.parentCategoryId w categoryId resp
  | Request.childrenCategoryIds categoryId => m.childrenCategoryIds w categoryId resp
  | Request.category categoryId => m.category w categoryId resp
  | Request.childCategories parentId => m.childCategories w parentId resp
  | Request.locale => m.locale w resp
  | Request.setLocale locale => m.setLocale w locale resp
  | Request.supportedFeatures => m.supportedFeatures w resp

end QPlaceManager

/-- One step in the life of a manager: a call of a public method, answered by
the engine with `resp`; a signal the engine emits on its own, outside any call
of the manager; or one turn of the event loop. -/
inductive Step where
  | call (req : Request) (resp : Response)
  | emission (e : EngineSignal)
  | turn
deriving DecidableEq, Repr

namespace QPlaceManager

/-- The world and the manager after one step. -/
def step (st : World × QPlaceManager) : Step → World × QPlaceManager
  | Step.call req resp => (st.2.call st.1 req resp).2
  | Step.emission e => (st.1.emit st.2.d e, st.2)
  | Step.turn => (st.1.processEvents, st.2)

/-- The world and the manager after a sequence of steps, first step first. -/
def run (st : World × QPlaceManager) (steps : List Step) : World × QPlaceManager :=
  steps.foldl step st

/-- The signals the engine emits in a sequence of steps, in order. -/
def emissions : List Step → List EngineSignal
  | [] => []
  | Step.call _ resp :: rest => resp.emits ++ emissions rest
  | Step.emission e :: rest => e :: emissions rest
  | Step.turn :: rest => emissions rest

/-- The eight connections the constructor makes between the engine `d` and the
manager `self`, in source order. -/
def connectionsMade (d self : Nat) : List Connection :=
  [ { sender := d, signal := ⟨SignalName.finished, [ParamType.QPlaceReplyPtr]⟩,
      receiver := self, method := ⟨SignalName.finished, [ParamType.QPlaceReplyPtr]⟩,
      type := ConnectionType.AutoConnection },
    { sender := d,
      signal := ⟨SignalName.error, [ParamType.QPlaceReplyPtr, ParamType.QPlaceReplyError]⟩,
      receiver := self,
      method := ⟨SignalName.error, [ParamType.QPlaceReplyPtr, ParamType.QPlaceReplyError]⟩,
      type := ConnectionType.AutoConnection },
    { sender := d, signal := ⟨SignalName.placeAdded, [ParamType.QString]⟩,
      receiver := self, method := ⟨SignalName.placeAdded, [ParamType.QString]⟩,
      type := ConnectionType.QueuedConnection },
    { sender := d, signal := ⟨SignalName.placeUpdated, [ParamType.QString]⟩,
      receiver := self, method := ⟨SignalName.placeUpdated, [ParamType.QString]⟩,
      type := ConnectionType.QueuedConnection },
    { sender := d, signal := ⟨SignalName.placeRemoved, [ParamType.QString]⟩,
      receiver := self, method := ⟨SignalName.placeRemoved, [ParamType.QString]⟩,
      type := ConnectionType.QueuedConnection },
    { sender := d,
      signal := ⟨SignalName.categoryAdded, [ParamType.QPlaceCategory, ParamType.QString]⟩,
      receiver := self,
      method := ⟨SignalName.categoryAdded, [ParamType.QPlaceCategory, ParamType.QString]⟩,
      type := ConnectionType.QueuedConnection },
    { sender := d,
      signal := ⟨SignalName.categoryUpdated, [ParamType.QPlaceCategory, ParamType.QString]⟩,
      receiver := self,
      method := ⟨SignalName.categoryUpdated, [ParamType.QPlaceCategory, ParamType.QString]⟩,
      type := ConnectionType.QueuedConnection },
    { sender := d,
      signal := ⟨SignalName.categoryRemoved, [ParamType.QString, ParamType.QString]⟩,
      receiver := self,
      method := ⟨SignalName.categoryRemoved, [ParamType.QString, ParamType.QString]⟩,
      type := ConnectionType.QueuedConnection } ]

end QPlaceManager

/-- The argument lists of the `error` signals the listeners of `receiver` have
observed, oldest first. -/
def World.errorsObserved (w : World) (receiver : Nat) : List (List Arg) :=
  ((w.observedBy receiver).filter (fun o => decide (o.name = SignalName.error))).map
    (fun o => o.args)

/-- An empty world: no object has a parent, nothing is connected, posted or observed. -/
def World.empty : World :=
  { parents := [], metaTypes := [], connections := [], engineCalls := [], callStack := [],
    turn := 0, posted := [], observed := [] }

/-- The manager with identity 1 constructed on engine 2 in the empty world. -/
def exampleWorld : World := (QPlaceManager.construct World.empty 1 (some 2)).2

/-- The manager of `exampleWorld`. -/
def exampleManager : QPlaceManager := { self := 1, d := 2 }

/-- An engine that fails a search: it emits `error` with code 3 and a
description, then `finished`, and returns reply 9. -/
def failedSearch : Response :=
  { result := 9,
    emits := [EngineSignal.error 9 3 "quota exceeded", EngineSignal.finished 9] }

/-- An engine that saves a place: it emits `finished` and `placeAdded` before
it returns reply 4. -/
def savedPlace : Response :=
  { result := 4,
    emits := [EngineSignal.finished 4, EngineSignal.placeAdded "p1"] }

/-- The world after a manager with identity `self` was constructed on the
engine `d` in the world `w0` and went through `steps`. -/
def QPlaceManager.worldAfter (w0 : World) (self d : Nat) (steps : List Step) : World :=
  (QPlaceManager.run ((QPlaceManager.construct w0 self (some d)).2, { self := self, d := d })
    steps).1

/-- The reply handle and the error code of each `error` emission in `es`, in
emission order. -/
def errorsEmitted (es : List EngineSignal) : List (List Arg) :=
  es.filterMap (fun e =>
    match e with
    | EngineSignal.error r c _ => some [Arg.reply r, Arg.error c]
    | _ => none)

/-- Nothing in the world refers to the object `self` yet: no connection has it
as receiver, nothing is posted to it and nothing was observed on it. -/
def World.isFresh (w : World) (self : Nat) : Bool :=
  w.connections.all (fun c => decide (c.receiver ≠ self)) &&
  w.posted.all (fun ev => decide (ev.receiver ≠ self)) &&
  w.observed.all (fun o => decide (o.receiver ≠ self))

/-!
Concrete inputs
-/

/-- A Location element that owns its address (object 0 of the address heap),
holds a coordinate object owned by another object (parent 7) and has no
bounding box. -/
def exampleLocation : QDeclarativeGeoLocation Nat Nat Nat :=
  { self := 1
    m_address := some 0
    m_coordinate := some 0
    m_boundingBox := none
    addresses := [{ parent := some (Ref.object 1), contents := 10, alive := true },
                  { parent := none, contents := 11, alive := true }]
    coordinates := [{ parent := some (Ref.object 7), contents := 20, alive := true },
                    { parent := some (Ref.object 1), contents := 21, alive := true }]
    rectangles := [{ parent := none, contents := 30, alive := true }]
    objects := []
    emitted := [] }

/-- The heaps in which `exampleConstructed` is created: one address object
that belongs to nobody. -/
def exampleAddresses : Heap Nat := [{ parent := none, contents := 11, alive := true }]

/-- A Location element constructed from the value (1, 2, 3) with identity 5. -/
def exampleConstructed : QDeclarativeGeoLocation Nat Nat Nat :=
  QDeclarativeGeoLocation.constructFrom
    { address := 1, coordinate := 2, boundingBox := 3 } 5 exampleAddresses [] [] []

namespace Heap

variable {V : Type}

theorem getElem?_write (h : Heap V) (p q : Nat) (v : V) :
    (h.write p v)[q]? =
      if q = p then (h[q]?).map (fun o => { o with contents := v }) else h[q]? := by
  unfold write
  by_cases hqp : q = p
  · subst hqp
    cases hq : h[q]? with
    | none => simpa using hq
    | some o =>
      have hlt : q < h.length := (List.getElem?_eq_some.mp hq).1
      simp [List.getElem?_set_self hlt]
  · cases hp : h[p]? with
    | none => simp [hqp]
    | some o =>
      have : p ≠ q := fun e => hqp e.symm
      simp [List.getElem?_set, hqp, this]

theorem getElem?_alloc (h : Heap V) (v : V) (parent : Ref) (q : Nat) :
    (h.alloc v parent).1[q]? =
      if q = h.length then some { parent := some parent, contents := v, alive := true }
      else h[q]? := by
  unfold alloc
  by_cases hq : q = h.length
  · subst hq
    simp
  · rcases Nat.lt_or_gt_of_ne hq with hlt | hgt
    · simp [hq, List.getElem?_append_left hlt]
    · have h1 : h[q]? = none := List.getElem?_eq_none (Nat.le_of_lt hgt)
      have h2 : (h ++ [({ parent := some parent, contents := v, alive := true } : QObj V)])[q]?
          = none := List.getElem?_eq_none (by simp; omega)
      simp [hq, h1, h2]

theorem parentOf_write (h : Heap V) (p q : Nat) (v : V) :
    (h.write p v).parentOf q = h.parentOf q := by
  unfold parentOf
  rw [getElem?_write]
  by_cases hqp : q = p <;> cases hq : h[q]? <;> simp [hqp]

theorem length_write (h : Heap V) (p : Nat) (v : V) : (h.write p v).length = h.length := by
  unfold write
  split <;> simp

theorem parentOf_alloc (h : Heap V) (v : V) (parent : Ref) (q : Nat) :
    (h.alloc v parent).1.parentOf q = if q = h.length then some parent else h.parentOf q := by
  unfold parentOf
  rw [getElem?_alloc]
  by_cases hq : q = h.length <;> simp [hq]

theorem alloc_snd (h : Heap V) (v : V) (parent : Ref) : (h.alloc v parent).2 = h.length := rfl

theorem lt_length_of_live (h : Heap V) (p : Nat) (hl : h.live p = true) : p < h.length := by
  unfold live at hl
  cases hp : h[p]? with
  | none => simp [hp] at hl
  | some o => exact (List.getElem?_eq_some.mp hp).1

theorem not_destroyed_of_live (h : Heap V) (p : Nat) (hl : h.live p = true) :
    h.destroyed p = false := by
  unfold destroyed
  unfold live at hl
  cases hp : h[p]? with
  | none => rfl
  | some o => simpa [hp] using hl

theorem parentOf_lt_length (h : Heap V) (p : Nat) (r : Ref) (hp : h.parentOf p = some r) :
    p < h.length := by
  unfold parentOf at hp
  cases hq : h[p]? with
  | none => simp [hq] at hp
  | some o => exact (List.getElem?_eq_some.mp hq).1

theorem getElem?_destroyFrom (dead : Nat → Bool) (h : Heap V) :
    ∀ i q, (destroyFrom dead i h)[q]? =
      (h[q]?).map (fun o => if dead (i + q) then { o with alive := false } else o) := by
  induction h with
  | nil => intro i q; simp [destroyFrom]
  | cons o h ih =>
    intro i q
    cases q with
    | zero => simp [destroyFrom]
    | succ q =>
      simp only [destroyFrom, List.getElem?_cons_succ]
      rw [ih (i + 1) q]
      have : i + 1 + q = i + (q + 1) := by omega
      rw [this]

theorem getElem?_destroyWhere (h : Heap V) (dead : Nat → Bool) (q : Nat) :
    (h.destroyWhere dead)[q]? =
      (h[q]?).map (fun o => if dead q then { o with alive := false } else o) := by
  unfold destroyWhere
  rw [getElem?_destroyFrom]
  simp

theorem getElem?_destroyWhere_of_false (h : Heap V) (dead : Nat → Bool) (q : Nat)
    (hd : dead q = false) : (h.destroyWhere dead)[q]? = h[q]? := by
  rw [getElem?_destroyWhere]
  cases h[q]? <;> simp [hd]

theorem length_destroyFrom (dead : Nat → Bool) (h : Heap V) :
    ∀ i, (destroyFrom dead i h).length = h.length := by
  induction h with
  | nil => intro i; rfl
  | cons o h ih => intro i; simp [destroyFrom, ih]

theorem length_destroyWhere (h : Heap V) (dead : Nat → Bool) :
    (h.destroyWhere dead).length = h.length :=
  length_destroyFrom dead h 0

theorem parentOf_destroyWhere (h : Heap V) (dead : Nat → Bool) (q : Nat) :
    (h.destroyWhere dead).parentOf q = h.parentOf q := by
  unfold parentOf
  rw [getElem?_destroyWhere]
  cases hq : h[q]? with
  | none => rfl
  | some o => by_cases hd : dead q = true <;> simp [hd]

theorem destroyed_destroyWhere (h : Heap V) (dead : Nat → Bool) (p : Nat)
    (hl : h.live p = true) (hd : dead p = true) : (h.destroyWhere dead).destroyed p = true := by
  unfold destroyed
  rw [getElem?_destroyWhere]
  unfold live at hl
  cases hp : h[p]? with
  | none => simp [hp] at hl
  | some o => simp [hd]

end Heap

/-!
Object trees and `delete`
-/

namespace QDeclarativeGeoLocation

variable {A C R : Type}

theorem count_append_singleton (l : List LocationSignal) (a b : LocationSignal) :
    (l ++ [a]).count b - l.count b = if a = b then 1 else 0 := by
  by_cases hab : a = b
  · subst hab; simp
  · have : (a == b) = false := by simpa using hab
    simp [List.count_cons, hab, this]

theorem inTree_self (s : QDeclarativeGeoLocation A C R) (root : Ref) (n : Nat) :
    s.inTree root n root = true := by
  cases n <;> simp [inTree]

theorem inTree_succ (s : QDeclarativeGeoLocation A C R) (root r : Ref) (n : Nat)
    (h : s.inTree root n r = true) : s.inTree root (n + 1) r = true := by
  induction n generalizing r with
  | zero =>
    simp only [inTree, decide_eq_true_eq] at h
    subst h
    exact inTree_self s r 1
  | succ n ih =>
    rw [inTree] at h ⊢
    simp only [Bool.or_eq_true, decide_eq_true_eq] at h ⊢
    rcases h with h | h
    · exact Or.inl h
    · right
      cases hp : s.parentOfRef r with
      | none => simp [hp] at h
      | some q =>
        simp only [hp] at h ⊢
        exact ih q h

theorem parentOfRef_delete (s : QDeclarativeGeoLocation A C R) (root r : Ref) :
    (s.delete root).parentOfRef r = s.parentOfRef r := by
  cases r <;> simp [delete, parentOfRef, Heap.parentOf_destroyWhere]

theorem delete_unchangedOutside (s : QDeclarativeGeoLocation A C R) (root : Ref) :
    unchangedOutside s (s.delete root) root :=
  ⟨fun q h => Heap.getElem?_destroyWhere_of_false _ _ q h,
   fun q h => Heap.getElem?_destroyWhere_of_false _ _ q h,
   fun q h => Heap.getElem?_destroyWhere_of_false _ _ q h,
   fun q h => Heap.getElem?_destroyWhere_of_false _ _ q h⟩

theorem Later.refl (s : QDeclarativeGeoLocation A C R) : Later s s :=
  ⟨rfl, fun _ => rfl, ⟨Nat.le_refl _, fun _ => Or.inl rfl⟩, ⟨Nat.le_refl _, fun _ => Or.inl rfl⟩,
    ⟨Nat.le_refl _, fun _ => Or.inl rfl⟩⟩

theorem Later.trans {s s1 s2 : QDeclarativeGeoLocation A C R} (h1 : Later s s1)
    (h2 : Later s1 s2) : Later s s2 := by
  obtain ⟨a0, a1, ⟨a2, a3⟩, ⟨a4, a5⟩, ⟨a6, a7⟩⟩ := h1
  obtain ⟨b0, b1, ⟨b2, b3⟩, ⟨b4, b5⟩, ⟨b6, b7⟩⟩ := h2
  refine ⟨b0.trans a0, fun q => (b1 q).trans (a1 q), ⟨Nat.le_trans a2 b2, ?_⟩,
    ⟨Nat.le_trans a4 b4, ?_⟩, ⟨Nat.le_trans a6 b6, ?_⟩⟩
  · intro q
    rcases b3 q with h | ⟨hl, h⟩
    · rw [h]; exact a3 q
    · exact Or.inr ⟨Nat.le_trans a2 hl, by rw [h, a0]⟩
  · intro q
    rcases b5 q with h | ⟨hl, h⟩
    · rw [h]; exact a5 q
    · exact Or.inr ⟨Nat.le_trans a4 hl, by rw [h, a0]⟩
  · intro q
    rcases b7 q with h | ⟨hl, h⟩
    · rw [h]; exact a7 q
    · exact Or.inr ⟨Nat.le_trans a6 hl, by rw [h, a0]⟩

theorem delete_later (s : QDeclarativeGeoLocation A C R) (root : Ref) :
    Later s (s.delete root) := by
  refine ⟨rfl, fun q => Heap.parentOf_destroyWhere _ _ q, ⟨?_, fun q => Or.inl ?_⟩,
    ⟨?_, fun q => Or.inl ?_⟩, ⟨?_, fun q => Or.inl ?_⟩⟩
  · simp [delete, Heap.length_destroyWhere]
  · exact Heap.parentOf_destroyWhere _ _ q
  · simp [delete, Heap.length_destroyWhere]
  · exact Heap.parentOf_destroyWhere _ _ q
  · simp [delete, Heap.length_destroyWhere]
  · exact Heap.parentOf_destroyWhere _ _ q

/-- Pointers and signals do not matter for `Later`. -/
theorem Later.of_heaps {s s1 s2 : QDeclarativeGeoLocation A C R} (h : Later s s1)
    (e0 : s2.self = s1.self) (e1 : s2.objects = s1.objects) (e2 : s2.addresses = s1.addresses)
    (e3 : s2.coordinates = s1.coordinates) (e4 : s2.rectangles = s1.rectangles) :
    Later s s2 := by
  unfold Later at h ⊢
  rw [e0, e1, e2, e3, e4]
  exact h

end QDeclarativeGeoLocation

/-!
The number of objects is enough fuel for `inTree`
-/

namespace QDeclarativeGeoLocation

variable {A C R : Type}

theorem inTree_iff_ancestor (s : QDeclarativeGeoLocation A C R) (root : Ref) (n : Nat) :
    ∀ r, s.inTree root n r = true ↔ ∃ k, k ≤ n ∧ s.ancestor k r = some root := by
  induction n with
  | zero =>
    intro r
    simp only [inTree, decide_eq_true_eq]
    constructor
    · intro h; exact ⟨0, Nat.le_refl _, by rw [h]; rfl⟩
    · rintro ⟨k, hk, h⟩
      have : k = 0 := Nat.le_zero.mp hk
      subst this
      simpa [ancestor] using h
  | succ n ih =>
    intro r
    rw [inTree]
    simp only [Bool.or_eq_true, decide_eq_true_eq]
    constructor
    · rintro (h | h)
      · exact ⟨0, Nat.zero_le _, by rw [h]; rfl⟩
      · cases hp : s.parentOfRef r with
        | none => simp [hp] at h
        | some q =>
          simp only [hp] at h
          obtain ⟨k, hk, hk2⟩ := (ih q).mp h
          exact ⟨k + 1, Nat.succ_le_succ hk, by simp [ancestor, hp, hk2]⟩
    · rintro ⟨k, hk, h⟩
      cases k with
      | zero => left; simpa [ancestor] using h
      | succ k =>
        right
        cases hp : s.parentOfRef r with
        | none => simp [ancestor, hp] at h
        | some q =>
          simp only [ancestor, hp] at h
          simp only [hp]
          exact (ih q).mpr ⟨k, Nat.le_of_succ_le_succ hk, h⟩

theorem ancestor_add (s : QDeclarativeGeoLocation A C R) (i j : Nat) :
    ∀ r, s.ancestor (i + j) r = (s.ancestor i r).bind (s.ancestor j) := by
  induction i with
  | zero => intro r; simp [ancestor]
  | succ i ih =>
    intro r
    have : i + 1 + j = (i + j) + 1 := by omega
    rw [this, ancestor, ancestor]
    cases s.parentOfRef r with
    | none => rfl
    | some q => exact ih q

theorem position_lt_size (s : QDeclarativeGeoLocation A C R) (r q : Ref)
    (h : s.parentOfRef r = some q) : s.position r < s.size := by
  cases r with
  | object n =>
    have := Heap.parentOf_lt_length _ _ _ h
    simp only [position, size]; omega
  | address n =>
    have := Heap.parentOf_lt_length _ _ _ h
    simp only [position, size]; omega
  | coordinate n =>
    have := Heap.parentOf_lt_length _ _ _ h
    simp only [position, size]; omega
  | rectangle n =>
    have := Heap.parentOf_lt_length _ _ _ h
    simp only [position, size]; omega

theorem position_injective (s : QDeclarativeGeoLocation A C R) (r1 r2 q1 q2 : Ref)
    (h1 : s.parentOfRef r1 = some q1) (h2 : s.parentOfRef r2 = some q2)
    (h : s.position r1 = s.position r2) : r1 = r2 := by
  cases r1 with
  | object n =>
    have a : n < s.objects.length := Heap.parentOf_lt_length _ _ _ h1
    cases r2 with
    | object m => simp only [position] at h; rw [h]
    | address m => simp only [position] at h; omega
    | coordinate m => simp only [position] at h; omega
    | rectangle m => simp only [position] at h; omega
  | address n =>
    have a : n < s.addresses.length := Heap.parentOf_lt_length _ _ _ h1
    cases r2 with
    | object m =>
      have b : m < s.objects.length := Heap.parentOf_lt_length _ _ _ h2
      simp only [position] at h; omega
    | address m =>
      simp only [position] at h
      have : n = m := by omega
      rw [this]
    | coordinate m => simp only [position] at h; omega
    | rectangle m => simp only [position] at h; omega
  | coordinate n =>
    have a : n < s.coordinates.length := Heap.parentOf_lt_length _ _ _ h1
    cases r2 with
    | object m =>
      have b : m < s.objects.length := Heap.parentOf_lt_length _ _ _ h2
      simp only [position] at h; omega
    | address m =>
      have b : m < s.addresses.length := Heap.parentOf_lt_length _ _ _ h2
      simp only [position] at h; omega
    | coordinate m =>
      simp only [position] at h
      have : n = m := by omega
      rw [this]
    | rectangle m => simp only [position] at h; omega
  | rectangle n =>
    cases r2 with
    | object m =>
      have b : m < s.objects.length := Heap.parentOf_lt_length _ _ _ h2
      simp only [position] at h; omega
    | address m =>
      have b : m < s.addresses.length := Heap.parentOf_lt_length _ _ _ h2
      simp only [position] at h; omega
    | coordinate m =>
      have b : m < s.coordinates.length := Heap.parentOf_lt_length _ _ _ h2
      simp only [position] at h; omega
    | rectangle m =>
      simp only [position] at h
      have : n = m := by omega
      rw [this]

theorem ancestor_short (s : QDeclarativeGeoLocation A C R) (root r : Ref) (k : Nat) :
    s.ancestor k r = some root → ∃ k', k' ≤ s.size ∧ s.ancestor k' r = some root := by
  induction k using Nat.strong_induction_on with
  | _ k ih =>
    intro hk
    by_cases hle : k ≤ s.size
    · exact ⟨k, hle, hk⟩
    · have hgt : s.size < k := Nat.lt_of_not_le hle
      -- every ancestor before the `k`-th exists and has a parent
      have hsome : ∀ i, i < k → ∃ x q, s.ancestor i r = some x ∧ s.parentOfRef x = some q := by
        intro i hi
        have e : s.ancestor k r = (s.ancestor i r).bind (s.ancestor ((k - i - 1) + 1)) := by
          have : k = i + ((k - i - 1) + 1) := by omega
          conv_lhs => rw [this]
          exact ancestor_add s i _ r
        rw [hk] at e
        cases hx : s.ancestor i r with
        | none => simp [hx] at e
        | some x =>
          rw [hx] at e
          simp only [Option.some_bind, ancestor] at e
          cases hq : s.parentOfRef x with
          | none => simp [hq] at e
          | some q => exact ⟨x, q, rfl, hq⟩
      -- two of the first `size + 1` ancestors coincide
      obtain ⟨i, hi, j, hj, hij, hf⟩ :=
        Finset.exists_ne_map_eq_of_card_lt_of_maps_to
          (s := Finset.range (s.size + 1)) (t := Finset.range s.size)
          (f := fun i => match s.ancestor i r with
            | some x => s.position x
            | none => 0)
          (by simp)
          (by
            intro i hi
            have hi' : i < k := by
              have := Finset.mem_range.mp hi
              omega
            obtain ⟨x, q, hx, hq⟩ := hsome i hi'
            simp only [hx, Finset.mem_range]
            exact position_lt_size s x q hq)
      have hi' : i < k := by have := Finset.mem_range.mp hi; omega
      have hj' : j < k := by have := Finset.mem_range.mp hj; omega
      obtain ⟨x, qx, hx, hqx⟩ := hsome i hi'
      obtain ⟨y, qy, hy, hqy⟩ := hsome j hj'
      simp only [hx, hy] at hf
      have hxy : x = y := position_injective s x y qx qy hqx hqy hf
      -- cut the loop out of the chain
      have cut : ∀ a b, a < b → b < k → s.ancestor a r = s.ancestor b r →
          ∃ k', k' ≤ s.size ∧ s.ancestor k' r = some root := by
        intro a b hab hbk hab2
        have e1 : s.ancestor k r = (s.ancestor b r).bind (s.ancestor (k - b)) := by
          have : k = b + (k - b) := by omega
          conv_lhs => rw [this]
          exact ancestor_add s b _ r
        have e2 : s.ancestor (a + (k - b)) r = (s.ancestor a r).bind (s.ancestor (k - b)) :=
          ancestor_add s a _ r
        have e3 : s.ancestor (a + (k - b)) r = some root := by
          rw [e2, hab2, ← e1, hk]
        exact ih (a + (k - b)) (by omega) e3
      rcases Nat.lt_or_gt_of_ne hij with hlt | hgt2
      · exact cut i j hlt hj' (by rw [hx, hy, hxy])
      · exact cut j i hgt2 hi' (by rw [hx, hy, hxy])

/-- Looking at `size` ancestors finds every tree an object belongs to: more
fuel does not add anything to `inTree`, and so to `delete`. -/
theorem inTree_size (s : QDeclarativeGeoLocation A C R) (root r : Ref) (n : Nat)
    (h : s.inTree root n r = true) : s.inTree root s.size r = true := by
  obtain ⟨k, _, hk⟩ := (inTree_iff_ancestor s root n r).mp h
  obtain ⟨k', hk', hk2⟩ := ancestor_short s root r k hk
  exact (inTree_iff_ancestor s root s.size r).mpr ⟨k', hk', hk2⟩

/-- Being below the element can be decided by looking at `size` ancestors. -/
theorem belowLocation_iff (s : QDeclarativeGeoLocation A C R) (r : Ref) :
    s.belowLocation r ↔ s.inTree (Ref.object s.self) s.size r = true :=
  ⟨fun ⟨n, hn⟩ => inTree_size s _ r n hn, fun h => ⟨s.size, h⟩⟩

/-- The statement `delete root` destroys every sub-object of the tree below
`root`, however deep. -/
theorem delete_destroys_tree (s : QDeclarativeGeoLocation A C R) (root : Ref) (n q : Nat) :
    (s.inTree root n (Ref.address q) = true → s.addresses.live q = true →
      (s.delete root).addresses.destroyed q = true) ∧
    (s.inTree root n (Ref.coordinate q) = true → s.coordinates.live q = true →
      (s.delete root).coordinates.destroyed q = true) ∧
    (s.inTree root n (Ref.rectangle q) = true → s.rectangles.live q = true →
      (s.delete root).rectangles.destroyed q = true) :=
  ⟨fun h hl => Heap.destroyed_destroyWhere _ _ _ hl (inTree_size s root _ n h),
   fun h hl => Heap.destroyed_destroyWhere _ _ _ hl (inTree_size s root _ n h),
   fun h hl => Heap.destroyed_destroyWhere _ _ _ hl (inTree_size s root _ n h)⟩

end QDeclarativeGeoLocation

/-!
The three fields, one at a time
-/

namespace QDeclarativeGeoLocation

variable {A C R : Type}

theorem addressNotOwned_of_not_owned (s : QDeclarativeGeoLocation A C R)
    (h : s.addressOwned = false) : s.addressNotOwned = true := by
  unfold addressOwned at h
  unfold addressNotOwned
  cases hm : s.m_address with
  | none => rfl
  | some p => simpa [hm] using h

theorem addressOwned_cases (s : QDeclarativeGeoLocation A C R) :
    (s.addressOwned = true ∧ ∃ p, s.m_address = some p ∧ s.addresses.parentOf p = some (Ref.object s.self)) ∨
    (s.addressOwned = false ∧ ∀ p, s.m_address = some p → s.addresses.parentOf p ≠ some (Ref.object s.self)) := by
  unfold addressOwned
  cases hm : s.m_address with
  | none => right; simp
  | some p =>
    by_cases hp : s.addresses.parentOf p = some (Ref.object s.self)
    · left; simp [hp]
    · right; simp [hp]

theorem setLocationAddress_of_owned (s : QDeclarativeGeoLocation A C R) (v : A) (p : Nat)
    (h : s.addressOwned = true) (hm : s.m_address = some p) :
    s.setLocationAddress v = { s with addresses := s.addresses.write p v } := by
  unfold setLocationAddress
  rw [if_pos h]
  simp [hm]

theorem setLocationAddress_of_not_owned (s : QDeclarativeGeoLocation A C R) (v : A)
    (h : s.addressOwned = false) :
    s.setLocationAddress v =
      { s with
        addresses := s.addresses ++ [{ parent := some (Ref.object s.self), contents := v, alive := true }]
        m_address := some s.addresses.length
        emitted := s.emitted ++ [LocationSignal.addressChanged] } := by
  unfold setLocationAddress
  rw [if_neg (by simp [h]), if_pos (addressNotOwned_of_not_owned s h)]
  rfl

theorem setLocationAddress_self (s : QDeclarativeGeoLocation A C R) (v : A) :
    (s.setLocationAddress v).self = s.self := by
  rcases addressOwned_cases s with ⟨h, p, hm, _⟩ | ⟨h, _⟩
  · rw [setLocationAddress_of_owned s v p h hm]
  · rw [setLocationAddress_of_not_owned s v h]

theorem setLocationAddress_others (s : QDeclarativeGeoLocation A C R) (v : A) :
    (s.setLocationAddress v).m_coordinate = s.m_coordinate ∧
    (s.setLocationAddress v).m_boundingBox = s.m_boundingBox ∧
    (s.setLocationAddress v).coordinates = s.coordinates ∧
    (s.setLocationAddress v).rectangles = s.rectangles := by
  rcases addressOwned_cases s with ⟨h, p, hm, _⟩ | ⟨h, _⟩
  · rw [setLocationAddress_of_owned s v p h hm]
    exact ⟨rfl, rfl, rfl, rfl⟩
  · rw [setLocationAddress_of_not_owned s v h]
    exact ⟨rfl, rfl, rfl, rfl⟩

theorem setLocationAddress_emitted (s : QDeclarativeGeoLocation A C R) (v : A) :
    (s.setLocationAddress v).emitted =
      s.emitted ++ (if s.addressOwned then [] else [LocationSignal.addressChanged]) := by
  rcases addressOwned_cases s with ⟨h, p, hm, _⟩ | ⟨h, _⟩
  · rw [setLocationAddress_of_owned s v p h hm]
    simp [h]
  · rw [setLocationAddress_of_not_owned s v h]
    simp [h]

theorem setLocationAddress_pointer (s : QDeclarativeGeoLocation A C R) (v : A) :
    (s.setLocationAddress v).m_address =
      if s.addressOwned then s.m_address else some s.addresses.length := by
  rcases addressOwned_cases s with ⟨h, p, hm, _⟩ | ⟨h, _⟩
  · rw [setLocationAddress_of_owned s v p h hm]
    simp [h]
  · rw [setLocationAddress_of_not_owned s v h]
    simp [h]

theorem setLocationAddress_owned (s : QDeclarativeGeoLocation A C R) (v : A) :
    (s.setLocationAddress v).addressOwned = true := by
  rcases addressOwned_cases s with ⟨h, p, hm, hp⟩ | ⟨h, _⟩
  · rw [setLocationAddress_of_owned s v p h hm]
    simp [addressOwned, hm, Heap.parentOf_write, hp]
  · rw [setLocationAddress_of_not_owned s v h]
    simp [addressOwned, Heap.parentOf]

theorem setLocationAddress_read [Inhabited A] (s : QDeclarativeGeoLocation A C R) (v : A) :
    ∃ p, (s.setLocationAddress v).m_address = some p ∧
      (s.setLocationAddress v).addresses.read p = v := by
  rcases addressOwned_cases s with ⟨h, p, hm, hp⟩ | ⟨h, _⟩
  · rw [setLocationAddress_of_owned s v p h hm]
    refine ⟨p, hm, ?_⟩
    have hex : ∃ o, s.addresses[p]? = some o := by
      unfold Heap.parentOf at hp
      cases hq : s.addresses[p]? with
      | none => simp [hq] at hp
      | some o => exact ⟨o, rfl⟩
    obtain ⟨o, ho⟩ := hex
    simp [Heap.read, Heap.getElem?_write, ho]
  · rw [setLocationAddress_of_not_owned s v h]
    exact ⟨s.addresses.length, rfl, by simp [Heap.read]⟩

theorem setLocationAddress_objects (s : QDeclarativeGeoLocation A C R) (v : A) :
    (s.setLocationAddress v).objects = s.objects := by
  rcases addressOwned_cases s with ⟨h, p, hm, _⟩ | ⟨h, _⟩
  · rw [setLocationAddress_of_owned s v p h hm]
  · rw [setLocationAddress_of_not_owned s v h]

theorem setLocationAddress_grows (s : QDeclarativeGeoLocation A C R) (v : A) :
    s.addresses.length ≤ (s.setLocationAddress v).addresses.length ∧
    ∀ q, (s.setLocationAddress v).addresses.parentOf q = s.addresses.parentOf q ∨
      (s.addresses.length ≤ q ∧
        (s.setLocationAddress v).addresses.parentOf q = some (Ref.object s.self)) := by
  rcases addressOwned_cases s with ⟨h, p, hm, _⟩ | ⟨h, _⟩
  · rw [setLocationAddress_of_owned s v p h hm]
    exact ⟨by simp [Heap.length_write], fun q => Or.inl (Heap.parentOf_write _ _ _ _)⟩
  · rw [setLocationAddress_of_not_owned s v h]
    refine ⟨by simp, fun q => ?_⟩
    have := Heap.parentOf_alloc s.addresses v (Ref.object s.self) q
    simp only [Heap.alloc] at this
    by_cases hq : q = s.addresses.length
    · right
      simp only [hq, if_true] at this
      exact ⟨Nat.le_of_eq hq.symm, by rw [hq]; exact this⟩
    · left
      simpa [hq] using this

theorem setAddress_of_eq (s : QDeclarativeGeoLocation A C R) (x : Option Nat)
    (h : s.m_address = x) : s.setAddress x = s := by
  simp [setAddress, h]

theorem setAddress_of_not_owned (s : QDeclarativeGeoLocation A C R) (x : Option Nat)
    (hne : s.m_address ≠ x) (ho : s.addressOwned = false) :
    s.setAddress x =
      { s with m_address := x, emitted := s.emitted ++ [LocationSignal.addressChanged] } := by
  unfold setAddress
  rw [if_neg hne]
  simp [ho]

theorem setAddress_of_owned (s : QDeclarativeGeoLocation A C R) (x : Option Nat) (p : Nat)
    (hne : s.m_address ≠ x) (hm : s.m_address = some p) (ho : s.addressOwned = true) :
    s.setAddress x =
      { s.delete (Ref.address p) with
        m_address := x, emitted := s.emitted ++ [LocationSignal.addressChanged] } := by
  unfold setAddress
  rw [if_neg hne]
  simp only [ho, if_true, hm]
  rfl

theorem setAddress_cases (s : QDeclarativeGeoLocation A C R) (x : Option Nat) :
    s.setAddress x = s ∨
    s.setAddress x =
      { s with m_address := x, emitted := s.emitted ++ [LocationSignal.addressChanged] } ∨
    ∃ p, s.parentOfRef (Ref.address p) = some (Ref.object s.self) ∧
      s.setAddress x =
        { s.delete (Ref.address p) with
          m_address := x, emitted := s.emitted ++ [LocationSignal.addressChanged] } := by
  by_cases hne : s.m_address = x
  · exact Or.inl (setAddress_of_eq s x hne)
  · rcases addressOwned_cases s with ⟨h, p, hm, hp⟩ | ⟨h, _⟩
    · exact Or.inr (Or.inr ⟨p, hp, setAddress_of_owned s x p hne hm h⟩)
    · exact Or.inr (Or.inl (setAddress_of_not_owned s x hne h))

theorem setAddress_spec (s : QDeclarativeGeoLocation A C R) (obj : Option Nat)
    (hl : ∀ p, s.m_address = some p → s.addresses.live p = true) :
    (s.m_address = obj → s.setAddress obj = s) ∧
    (s.m_address ≠ obj →
      (s.setAddress obj).address = obj ∧
      (∀ p, s.m_address = some p →
        ((s.setAddress obj).addresses.destroyed p = true ↔
          s.addresses.parentOf p = some (Ref.object s.self))) ∧
      (s.addressOwned = false →
        s.setAddress obj =
          { s with m_address := obj,
                   emitted := s.emitted ++ [LocationSignal.addressChanged] }) ∧
      (∀ p, s.m_address = some p → s.addressOwned = true →
        s.setAddress obj =
          { s.delete (Ref.address p) with
            m_address := obj, emitted := s.emitted ++ [LocationSignal.addressChanged] }) ∧
      (∀ p, s.m_address = some p → unchangedOutside s (s.setAddress obj) (Ref.address p)) ∧
      raised s (s.setAddress obj) LocationSignal.addressChanged = 1 ∧
      raised s (s.setAddress obj) LocationSignal.coordinateChanged = 0 ∧
      raised s (s.setAddress obj) LocationSignal.boundingBoxChanged = 0 ∧
      (s.setAddress obj).coordinate = s.coordinate ∧
      (s.setAddress obj).boundingBox = s.boundingBox) := by
  refine ⟨setAddress_of_eq s obj, fun hne => ?_⟩
  rcases addressOwned_cases s with ⟨h, p, hm, hp⟩ | ⟨h, hnp⟩
  · have e := setAddress_of_owned s obj p hne hm h
    have hlp := hl p hm
    have hsame : ∀ p', s.m_address = some p' → p' = p := by
      intro p' hp'
      rw [hm] at hp'
      exact (Option.some.inj hp').symm
    refine ⟨?_, ?_, ?_, ?_, ?_, ?_, ?_, ?_, ?_, ?_⟩
    · rw [e]; rfl
    · intro p' hp'
      rw [hsame p' hp']
      refine ⟨fun _ => hp, fun _ => ?_⟩
      rw [e]
      exact Heap.destroyed_destroyWhere _ _ _ hlp (inTree_self s _ _)
    · intro hf
      rw [h] at hf
      cases hf
    · intro p' hp' _
      rw [hsame p' hp']
      exact e
    · intro p' hp'
      rw [hsame p' hp', e]
      exact delete_unchangedOutside s _
    · rw [e]; exact count_append_singleton _ _ _
    · rw [e]; exact count_append_singleton _ _ _
    · rw [e]; exact count_append_singleton _ _ _
    · rw [e]; rfl
    · rw [e]; rfl
  · have e := setAddress_of_not_owned s obj hne h
    refine ⟨?_, ?_, ?_, ?_, ?_, ?_, ?_, ?_, ?_, ?_⟩
    · rw [e]; rfl
    · intro p hm
      rw [e]
      show s.addresses.destroyed p = true ↔ _
      rw [Heap.not_destroyed_of_live _ _ (hl p hm)]
      simp only [Bool.false_eq_true, false_iff]
      exact hnp p hm
    · intro _
      exact e
    · intro _ _ hf
      rw [h] at hf
      cases hf
    · intro p _
      rw [e]
      exact ⟨fun _ _ => rfl, fun _ _ => rfl, fun _ _ => rfl, fun _ _ => rfl⟩
    · rw [e]; exact count_append_singleton _ _ _
    · rw [e]; exact count_append_singleton _ _ _
    · rw [e]; exact count_append_singleton _ _ _
    · rw [e]; rfl
    · rw [e]; rfl

theorem setAddress_pointer (s : QDeclarativeGeoLocation A C R) (x : Option Nat) :
    (s.setAddress x).m_address = x := by
  unfold setAddress
  split
  · assumption
  · rfl

theorem setAddress_self (s : QDeclarativeGeoLocation A C R) (x : Option Nat) :
    (s.setAddress x).self = s.self := by
  rcases setAddress_cases s x with e | e | ⟨p, _, e⟩ <;> (rw [e]; try rfl)

theorem setAddress_others (s : QDeclarativeGeoLocation A C R) (x : Option Nat) :
    (s.setAddress x).m_coordinate = s.m_coordinate ∧
    (s.setAddress x).m_boundingBox = s.m_boundingBox := by
  rcases setAddress_cases s x with e | e | ⟨p, _, e⟩ <;> (rw [e]; try exact ⟨rfl, rfl⟩)

theorem setAddress_emitted (s : QDeclarativeGeoLocation A C R) (x : Option Nat) :
    (s.setAddress x).emitted =
      s.emitted ++ (if s.m_address = x then [] else [LocationSignal.addressChanged]) := by
  by_cases hne : s.m_address = x
  · rw [setAddress_of_eq s x hne]; simp [hne]
  · rcases addressOwned_cases s with ⟨h, p, hm, _⟩ | ⟨h, _⟩
    · rw [setAddress_of_owned s x p hne hm h]; simp [hne]
    · rw [setAddress_of_not_owned s x hne h]; simp [hne]

theorem setAddress_later (s : QDeclarativeGeoLocation A C R) (x : Option Nat) :
    Later s (s.setAddress x) := by
  rcases setAddress_cases s x with e | e | ⟨p, _, e⟩
  · rw [e]; exact Later.refl s
  · rw [e]; exact Later.of_heaps (Later.refl s) rfl rfl rfl rfl rfl
  · rw [e]; exact Later.of_heaps (delete_later s _) rfl rfl rfl rfl rfl

theorem coordinateNotOwned_of_not_owned (s : QDeclarativeGeoLocation A C R)
    (h : s.coordinateOwned = false) : s.coordinateNotOwned = true := by
  unfold coordinateOwned at h
  unfold coordinateNotOwned
  cases hm : s.m_coordinate with
  | none => rfl
  | some p => simpa [hm] using h

theorem coordinateOwned_cases (s : QDeclarativeGeoLocation A C R) :
    (s.coordinateOwned = true ∧ ∃ p, s.m_coordinate = some p ∧ s.coordinates.parentOf p = some (Ref.object s.self)) ∨
    (s.coordinateOwned = false ∧ ∀ p, s.m_coordinate = some p → s.coordinates.parentOf p ≠ some (Ref.object s.self)) := by
  unfold coordinateOwned
  cases hm : s.m_coordinate with
  | none => right; simp
  | some p =>
    by_cases hp : s.coordinates.parentOf p = some (Ref.object s.self)
    · left; simp [hp]
    · right; simp [hp]

theorem setLocationCoordinate_of_owned (s : QDeclarativeGeoLocation A C R) (v : C) (p : Nat)
    (h : s.coordinateOwned = true) (hm : s.m_coordinate = some p) :
    s.setLocationCoordinate v = { s with coordinates := s.coordinates.write p v } := by
  unfold setLocationCoordinate
  rw [if_pos h]
  simp [hm]

theorem setLocationCoordinate_of_not_owned (s : QDeclarativeGeoLocation A C R) (v : C)
    (h : s.coordinateOwned = false) :
    s.setLocationCoordinate v =
      { s with
        coordinates := s.coordinates ++ [{ parent := some (Ref.object s.self), contents := v, alive := true }]
        m_coordinate := some s.coordinates.length
        emitted := s.emitted ++ [LocationSignal.coordinateChanged] } := by
  unfold setLocationCoordinate
  rw [if_neg (by simp [h]), if_pos (coordinateNotOwned_of_not_owned s h)]
  rfl

theorem setLocationCoordinate_self (s : QDeclarativeGeoLocation A C R) (v : C) :
    (s.setLocationCoordinate v).self = s.self := by
  rcases coordinateOwned_cases s with ⟨h, p, hm, _⟩ | ⟨h, _⟩
  · rw [setLocationCoordinate_of_owned s v p h hm]
  · rw [setLocationCoordinate_of_not_owned s v h]

theorem setLocationCoordinate_others (s : QDeclarativeGeoLocation A C R) (v : C) :
    (s.setLocationCoordinate v).m_address = s.m_address ∧
    (s.setLocationCoordinate v).m_boundingBox = s.m_boundingBox ∧
    (s.setLocationCoordinate v).addresses = s.addresses ∧
    (s.setLocationCoordinate v).rectangles = s.rectangles := by
  rcases coordinateOwned_cases s with ⟨h, p, hm, _⟩ | ⟨h, _⟩
  · rw [setLocationCoordinate_of_owned s v p h hm]
    exact ⟨rfl, rfl, rfl, rfl⟩
  · rw [setLocationCoordinate_of_not_owned s v h]
    exact ⟨rfl, rfl, rfl, rfl⟩

theorem setLocationCoordinate_emitted (s : QDeclarativeGeoLocation A C R) (v : C) :
    (s.setLocationCoordinate v).emitted =
      s.emitted ++ (if s.coordinateOwned then [] else [LocationSignal.coordinateChanged]) := by
  rcases coordinateOwned_cases s with ⟨h, p, hm, _⟩ | ⟨h, _⟩
  · rw [setLocationCoordinate_of_owned s v p h hm]
    simp [h]
  · rw [setLocationCoordinate_of_not_owned s v h]
    simp [h]

theorem setLocationCoordinate_pointer (s : QDeclarativeGeoLocation A C R) (v : C) :
    (s.setLocationCoordinate v).m_coordinate =
      if s.coordinateOwned then s.m_coordinate else some s.coordinates.length := by
  rcases coordinateOwned_cases s with ⟨h, p, hm, _⟩ | ⟨h, _⟩
  · rw [setLocationCoordinate_of_owned s v p h hm]
    simp [h]
  · rw [setLocationCoordinate_of_not_owned s v h]
    simp [h]

theorem setLocationCoordinate_owned (s : QDeclarativeGeoLocation A C R) (v : C) :
    (s.setLocationCoordinate v).coordinateOwned = true := by
  rcases coordinateOwned_cases s with ⟨h, p, hm, hp⟩ | ⟨h, _⟩
  · rw [setLocationCoordinate_of_owned s v p h hm]
    simp [coordinateOwned, hm, Heap.parentOf_write, hp]
  · rw [setLocationCoordinate_of_not_owned s v h]
    simp [coordinateOwned, Heap.parentOf]

theorem setLocationCoordinate_read [Inhabited C] (s : QDeclarativeGeoLocation A C R) (v : C) :
    ∃ p, (s.setLocationCoordinate v).m_coordinate = some p ∧
      (s.setLocationCoordinate v).coordinates.read p = v := by
  rcases coordinateOwned_cases s with ⟨h, p, hm, hp⟩ | ⟨h, _⟩
  · rw [setLocationCoordinate_of_owned s v p h hm]
    refine ⟨p, hm, ?_⟩
    have hex : ∃ o, s.coordinates[p]? = some o := by
      unfold Heap.parentOf at hp
      cases hq : s.coordinates[p]? with
      | none => simp [hq] at hp
      | some o => exact ⟨o, rfl⟩
    obtain ⟨o, ho⟩ := hex
    simp [Heap.read, Heap.getElem?_write, ho]
  · rw [setLocationCoordinate_of_not_owned s v h]
    exact ⟨s.coordinates.length, rfl, by simp [Heap.read]⟩

theorem setLocationCoordinate_objects (s : QDeclarativeGeoLocation A C R) (v : C) :
    (s.setLocationCoordinate v).objects = s.objects := by
  rcases coordinateOwned_cases s with ⟨h, p, hm, _⟩ | ⟨h, _⟩
  · rw [setLocationCoordinate_of_owned s v p h hm]
  · rw [setLocationCoordinate_of_not_owned s v h]

theorem setLocationCoordinate_grows (s : QDeclarativeGeoLocation A C R) (v : C) :
    s.coordinates.length ≤ (s.setLocationCoordinate v).coordinates.length ∧
    ∀ q, (s.setLocationCoordinate v).coordinates.parentOf q = s.coordinates.parentOf q ∨
      (s.coordinates.length ≤ q ∧
        (s.setLocationCoordinate v).coordinates.parentOf q = some (Ref.object s.self)) := by
  rcases coordinateOwned_cases s with ⟨h, p, hm, _⟩ | ⟨h, _⟩
  · rw [setLocationCoordinate_of_owned s v p h hm]
    exact ⟨by simp [Heap.length_write], fun q => Or.inl (Heap.parentOf_write _ _ _ _)⟩
  · rw [setLocationCoordinate_of_not_owned s v h]
    refine ⟨by simp, fun q => ?_⟩
    have := Heap.parentOf_alloc s.coordinates v (Ref.object s.self) q
    simp only [Heap.alloc] at this
    by_cases hq : q = s.coordinates.length
    · right
      simp only [hq, if_true] at this
      exact ⟨Nat.le_of_eq hq.symm, by rw [hq]; exact this⟩
    · left
      simpa [hq] using this

theorem setCoordinate_of_eq (s : QDeclarativeGeoLocation A C R) (x : Option Nat)
    (h : s.m_coordinate = x) : s.setCoordinate x = s := by
  simp [setCoordinate, h]

theorem setCoordinate_of_not_owned (s : QDeclarativeGeoLocation A C R) (x : Option Nat)
    (hne : s.m_coordinate ≠ x) (ho : s.coordinateOwned = false) :
    s.setCoordinate x =
      { s with m_coordinate := x, emitted := s.emitted ++ [LocationSignal.coordinateChanged] } := by
  unfold setCoordinate
  rw [if_neg hne]
  simp [ho]

theorem setCoordinate_of_owned (s : QDeclarativeGeoLocation A C R) (x : Option Nat) (p : Nat)
    (hne : s.m_coordinate ≠ x) (hm : s.m_coordinate = some p) (ho : s.coordinateOwned = true) :
    s.setCoordinate x =
      { s.delete (Ref.coordinate p) with
        m_coordinate := x, emitted := s.emitted ++ [LocationSignal.coordinateChanged] } := by
  unfold setCoordinate
  rw [if_neg hne]
  simp only [ho, if_true, hm]
  rfl

theorem setCoordinate_cases (s : QDeclarativeGeoLocation A C R) (x : Option Nat) :
    s.setCoordinate x = s ∨
    s.setCoordinate x =
      { s with m_coordinate := x, emitted := s.emitted ++ [LocationSignal.coordinateChanged] } ∨
    ∃ p, s.parentOfRef (Ref.coordinate p) = some (Ref.object s.self) ∧
      s.setCoordinate x =
        { s.delete (Ref.coordinate p) with
          m_coordinate := x, emitted := s.emitted ++ [LocationSignal.coordinateChanged] } := by
  by_cases hne : s.m_coordinate = x
  · exact Or.inl (setCoordinate_of_eq s x hne)
  · rcases coordinateOwned_cases s with ⟨h, p, hm, hp⟩ | ⟨h, _⟩
    · exact Or.inr (Or.inr ⟨p, hp, setCoordinate_of_owned s x p hne hm h⟩)
    · exact Or.inr (Or.inl (setCoordinate_of_not_owned s x hne h))

theorem setCoordinate_spec (s : QDeclarativeGeoLocation A C R) (obj : Option Nat)
    (hl : ∀ p, s.m_coordinate = some p → s.coordinates.live p = true) :
    (s.m_coordinate = obj → s.setCoordinate obj = s) ∧
    (s.m_coordinate ≠ obj →
      (s.setCoordinate obj).coordinate = obj ∧
      (∀ p, s.m_coordinate = some p →
        ((s.setCoordinate obj).coordinates.destroyed p = true ↔
          s.coordinates.parentOf p = some (Ref.object s.self))) ∧
      (s.coordinateOwned = false →
        s.setCoordinate obj =
          { s with m_coordinate := obj,
                   emitted := s.emitted ++ [LocationSignal.coordinateChanged] }) ∧
      (∀ p, s.m_coordinate = some p → s.coordinateOwned = true →
        s.setCoordinate obj =
          { s.delete (Ref.coordinate p) with
            m_coordinate := obj, emitted := s.emitted ++ [LocationSignal.coordinateChanged] }) ∧
      (∀ p, s.m_coordinate = some p → unchangedOutside s (s.setCoordinate obj) (Ref.coordinate p)) ∧
      raised s (s.setCoordinate obj) LocationSignal.coordinateChanged = 1 ∧
      raised s (s.setCoordinate obj) LocationSignal.addressChanged = 0 ∧
      raised s (s.setCoordinate obj) LocationSignal.boundingBoxChanged = 0 ∧
      (s.setCoordinate obj).address = s.address ∧
      (s.setCoordinate obj).boundingBox = s.boundingBox) := by
  refine ⟨setCoordinate_of_eq s obj, fun hne => ?_⟩
  rcases coordinateOwned_cases s with ⟨h, p, hm, hp⟩ | ⟨h, hnp⟩
  · have e := setCoordinate_of_owned s obj p hne hm h
    have hlp := hl p hm
    have hsame : ∀ p', s.m_coordinate = some p' → p' = p := by
      intro p' hp'
      rw [hm] at hp'
      exact (Option.some.inj hp').symm
    refine ⟨?_, ?_, ?_, ?_, ?_, ?_, ?_, ?_, ?_, ?_⟩
    · rw [e]; rfl
    · intro p' hp'
      rw [hsame p' hp']
      refine ⟨fun _ => hp, fun _ => ?_⟩
      rw [e]
      exact Heap.destroyed_destroyWhere _ _ _ hlp (inTree_self s _ _)
    · intro hf
      rw [h] at hf
      cases hf
    · intro p' hp' _
      rw [hsame p' hp']
      exact e
    · intro p' hp'
      rw [hsame p' hp', e]
      exact delete_unchangedOutside s _
    · rw [e]; exact count_append_singleton _ _ _
    · rw [e]; exact count_append_singleton _ _ _
    · rw [e]; exact count_append_singleton _ _ _
    · rw [e]; rfl
    · rw [e]; rfl
  · have e := setCoordinate_of_not_owned s obj hne h
    refine ⟨?_, ?_, ?_, ?_, ?_, ?_, ?_, ?_, ?_, ?_⟩
    · rw [e]; rfl
    · intro p hm
      rw [e]
      show s.coordinates.destroyed p = true ↔ _
      rw [Heap.not_destroyed_of_live _ _ (hl p hm)]
      simp only [Bool.false_eq_true, false_iff]
      exact hnp p hm
    · intro _
      exact e
    · intro _ _ hf
      rw [h] at hf
      cases hf
    · intro p _
      rw [e]
      exact ⟨fun _ _ => rfl, fun _ _ => rfl, fun _ _ => rfl, fun _ _ => rfl⟩
    · rw [e]; exact count_append_singleton _ _ _
    · rw [e]; exact count_append_singleton _ _ _
    · rw [e]; exact count_append_singleton _ _ _
    · rw [e]; rfl
    · rw [e]; rfl

theorem setCoordinate_pointer (s : QDeclarativeGeoLocation A C R) (x : Option Nat) :
    (s.setCoordinate x).m_coordinate = x := by
  unfold setCoordinate
  split
  · assumption
  · rfl

theorem setCoordinate_self (s : QDeclarativeGeoLocation A C R) (x : Option Nat) :
    (s.setCoordinate x).self = s.self := by
  rcases setCoordinate_cases s x with e | e | ⟨p, _, e⟩ <;> (rw [e]; try rfl)

theorem setCoordinate_others (s : QDeclarativeGeoLocation A C R) (x : Option Nat) :
    (s.setCoordinate x).m_address = s.m_address ∧
    (s.setCoordinate x).m_boundingBox = s.m_boundingBox := by
  rcases setCoordinate_cases s x with e | e | ⟨p, _, e⟩ <;> (rw [e]; try exact ⟨rfl, rfl⟩)

theorem setCoordinate_emitted (s : QDeclarativeGeoLocation A C R) (x : Option Nat) :
    (s.setCoordinate x).emitted =
      s.emitted ++ (if s.m_coordinate = x then [] else [LocationSignal.coordinateChanged]) := by
  by_cases hne : s.m_coordinate = x
  · rw [setCoordinate_of_eq s x hne]; simp [hne]
  · rcases coordinateOwned_cases s with ⟨h, p, hm, _⟩ | ⟨h, _⟩
    · rw [setCoordinate_of_owned s x p hne hm h]; simp [hne]
    · rw [setCoordinate_of_not_owned s x hne h]; simp [hne]

theorem setCoordinate_later (s : QDeclarativeGeoLocation A C R) (x : Option Nat) :
    Later s (s.setCoordinate x) := by
  rcases setCoordinate_cases s x with e | e | ⟨p, _, e⟩
  · rw [e]; exact Later.refl s
  · rw [e]; exact Later.of_heaps (Later.refl s) rfl rfl rfl rfl rfl
  · rw [e]; exact Later.of_heaps (delete_later s _) rfl rfl rfl rfl rfl

theorem boundingBoxNotOwned_of_not_owned (s : QDeclarativeGeoLocation A C R)
    (h : s.boundingBoxOwned = false) : s.boundingBoxNotOwned = true := by
  unfold boundingBoxOwned at h
  unfold boundingBoxNotOwned
  cases hm : s.m_boundingBox with
  | none => rfl
  | some p => simpa [hm] using h

theorem boundingBoxOwned_cases (s : QDeclarativeGeoLocation A C R) :
    (s.boundingBoxOwned = true ∧ ∃ p, s.m_boundingBox = some p ∧ s.rectangles.parentOf p = some (Ref.object s.self)) ∨
    (s.boundingBoxOwned = false ∧ ∀ p, s.m_boundingBox = some p → s.rectangles.parentOf p ≠ some (Ref.object s.self)) := by
  unfold boundingBoxOwned
  cases hm : s.m_boundingBox with
  | none => right; simp
  | some p =>
    by_cases hp : s.rectangles.parentOf p = some (Ref.object s.self)
    · left; simp [hp]
    · right; simp [hp]

theorem setLocationBoundingBox_of_owned (s : QDeclarativeGeoLocation A C R) (v : R) (p : Nat)
    (h : s.boundingBoxOwned = true) (hm : s.m_boundingBox = some p) :
    s.setLocationBoundingBox v = { s with rectangles := s.rectangles.write p v } := by
  unfold setLocationBoundingBox
  rw [if_pos h]
  simp [hm]

theorem setLocationBoundingBox_of_not_owned (s : QDeclarativeGeoLocation A C R) (v : R)
    (h : s.boundingBoxOwned = false) :
    s.setLocationBoundingBox v =
      { s with
        rectangles := s.rectangles ++ [{ parent := some (Ref.object s.self), contents := v, alive := true }]
        m_boundingBox := some s.rectangles.length
        emitted := s.emitted ++ [LocationSignal.boundingBoxChanged] } := by
  unfold setLocationBoundingBox
  rw [if_neg (by simp [h]), if_pos (boundingBoxNotOwned_of_not_owned s h)]
  rfl

theorem setLocationBoundingBox_self (s : QDeclarativeGeoLocation A C R) (v : R) :
    (s.setLocationBoundingBox v).self = s.self := by
  rcases boundingBoxOwned_cases s with ⟨h, p, hm, _⟩ | ⟨h, _⟩
  · rw [setLocationBoundingBox_of_owned s v p h hm]
  · rw [setLocationBoundingBox_of_not_owned s v h]

theorem setLocationBoundingBox_others (s : QDeclarativeGeoLocation A C R) (v : R) :
    (s.setLocationBoundingBox v).m_coordinate = s.m_coordinate ∧
    (s.setLocationBoundingBox v).m_address = s.m_address ∧
    (s.setLocationBoundingBox v).coordinates = s.coordinates ∧
    (s.setLocationBoundingBox v).addresses = s.addresses := by
  rcases boundingBoxOwned_cases s with ⟨h, p, hm, _⟩ | ⟨h, _⟩
  · rw [setLocationBoundingBox_of_owned s v p h hm]
    exact ⟨rfl, rfl, rfl, rfl⟩
  · rw [setLocationBoundingBox_of_not_owned s v h]
    exact ⟨rfl, rfl, rfl, rfl⟩

theorem setLocationBoundingBox_emitted (s : QDeclarativeGeoLocation A C R) (v : R) :
    (s.setLocationBoundingBox v).emitted =
      s.emitted ++ (if s.boundingBoxOwned then [] else [LocationSignal.boundingBoxChanged]) := by
  rcases boundingBoxOwned_cases s with ⟨h, p, hm, _⟩ | ⟨h, _⟩
  · rw [setLocationBoundingBox_of_owned s v p h hm]
    simp [h]
  · rw [setLocationBoundingBox_of_not_owned s v h]
    simp [h]

theorem setLocationBoundingBox_pointer (s : QDeclarativeGeoLocation A C R) (v : R) :
    (s.setLocationBoundingBox v).m_boundingBox =
      if s.boundingBoxOwned then s.m_boundingBox else some s.rectangles.length := by
  rcases boundingBoxOwned_cases s with ⟨h, p, hm, _⟩ | ⟨h, _⟩
  · rw [setLocationBoundingBox_of_owned s v p h hm]
    simp [h]
  · rw [setLocationBoundingBox_of_not_owned s v h]
    simp [h]

theorem setLocationBoundingBox_owned (s : QDeclarativeGeoLocation A C R) (v : R) :
    (s.setLocationBoundingBox v).boundingBoxOwned = true := by
  rcases boundingBoxOwned_cases s with ⟨h, p, hm, hp⟩ | ⟨h, _⟩
  · rw [setLocationBoundingBox_of_owned s v p h hm]
    simp [boundingBoxOwned, hm, Heap.parentOf_write, hp]
  · rw [setLocationBoundingBox_of_not_owned s v h]
    simp [boundingBoxOwned, Heap.parentOf]

theorem setLocationBoundingBox_read [Inhabited R] (s : QDeclarativeGeoLocation A C R) (v : R) :
    ∃ p, (s.setLocationBoundingBox v).m_boundingBox = some p ∧
      (s.setLocationBoundingBox v).rectangles.read p = v := by
  rcases boundingBoxOwned_cases s with ⟨h, p, hm, hp⟩ | ⟨h, _⟩
  · rw [setLocationBoundingBox_of_owned s v p h hm]
    refine ⟨p, hm, ?_⟩
    have hex : ∃ o, s.rectangles[p]? = some o := by
      unfold Heap.parentOf at hp
      cases hq : s.rectangles[p]? with
      | none => simp [hq] at hp
      | some o => exact ⟨o, rfl⟩
    obtain ⟨o, ho⟩ := hex
    simp [Heap.read, Heap.getElem?_write, ho]
  · rw [setLocationBoundingBox_of_not_owned s v h]
    exact ⟨s.rectangles.length, rfl, by simp [Heap.read]⟩

theorem setLocationBoundingBox_objects (s : QDeclarativeGeoLocation A C R) (v : R) :
    (s.setLocationBoundingBox v).objects = s.objects := by
  rcases boundingBoxOwned_cases s with ⟨h, p, hm, _⟩ | ⟨h, _⟩
  · rw [setLocationBoundingBox_of_owned s v p h hm]
  · rw [setLocationBoundingBox_of_not_owned s v h]

theorem setLocationBoundingBox_grows (s : QDeclarativeGeoLocation A C R) (v : R) :
    s.rectangles.length ≤ (s.setLocationBoundingBox v).rectangles.length ∧
    ∀ q, (s.setLocationBoundingBox v).rectangles.parentOf q = s.rectangles.parentOf q ∨
      (s.rectangles.length ≤ q ∧
        (s.setLocationBoundingBox v).rectangles.parentOf q = some (Ref.object s.self)) := by
  rcases boundingBoxOwned_cases s with ⟨h, p, hm, _⟩ | ⟨h, _⟩
  · rw [setLocationBoundingBox_of_owned s v p h hm]
    exact ⟨by simp [Heap.length_write], fun q => Or.inl (Heap.parentOf_write _ _ _ _)⟩
  · rw [setLocationBoundingBox_of_not_owned s v h]
    refine ⟨by simp, fun q => ?_⟩
    have := Heap.parentOf_alloc s.rectangles v (Ref.object s.self) q
    simp only [Heap.alloc] at this
    by_cases hq : q = s.rectangles.length
    · right
      simp only [hq, if_true] at this
      exact ⟨Nat.le_of_eq hq.symm, by rw [hq]; exact this⟩
    · left
      simpa [hq] using this

theorem setBoundingBox_of_eq (s : QDeclarativeGeoLocation A C R) (x : Option Nat)
    (h : s.m_boundingBox = x) : s.setBoundingBox x = s := by
  simp [setBoundingBox, h]

theorem setBoundingBox_of_not_owned (s : QDeclarativeGeoLocation A C R) (x : Option Nat)
    (hne : s.m_boundingBox ≠ x) (ho : s.boundingBoxOwned = false) :
    s.setBoundingBox x =
      { s with m_boundingBox := x, emitted := s.emitted ++ [LocationSignal.boundingBoxChanged] } := by
  unfold setBoundingBox
  rw [if_neg hne]
  simp [ho]

theorem setBoundingBox_of_owned (s : QDeclarativeGeoLocation A C R) (x : Option Nat) (p : Nat)
    (hne : s.m_boundingBox ≠ x) (hm : s.m_boundingBox = some p) (ho : s.boundingBoxOwned = true) :
    s.setBoundingBox x =
      { s.delete (Ref.rectangle p) with
        m_boundingBox := x, emitted := s.emitted ++ [LocationSignal.boundingBoxChanged] } := by
  unfold setBoundingBox
  rw [if_neg hne]
  simp only [ho, if_true, hm]
  rfl

theorem setBoundingBox_cases (s : QDeclarativeGeoLocation A C R) (x : Option Nat) :
    s.setBoundingBox x = s ∨
    s.setBoundingBox x =
      { s with m_boundingBox := x, emitted := s.emitted ++ [LocationSignal.boundingBoxChanged] } ∨
    ∃ p, s.parentOfRef (Ref.rectangle p) = some (Ref.object s.self) ∧
      s.setBoundingBox x =
        { s.delete (Ref.rectangle p) with
          m_boundingBox := x, emitted := s.emitted ++ [LocationSignal.boundingBoxChanged] } := by
  by_cases hne : s.m_boundingBox = x
  · exact Or.inl (setBoundingBox_of_eq s x hne)
  · rcases boundingBoxOwned_cases s with ⟨h, p, hm, hp⟩ | ⟨h, _⟩
    · exact Or.inr (Or.inr ⟨p, hp, setBoundingBox_of_owned s x p hne hm h⟩)
    · exact Or.inr (Or.inl (setBoundingBox_of_not_owned s x hne h))

theorem setBoundingBox_spec (s : QDeclarativeGeoLocation A C R) (obj : Option Nat)
    (hl : ∀ p, s.m_boundingBox = some p → s.rectangles.live p = true) :
    (s.m_boundingBox = obj → s.setBoundingBox obj = s) ∧
    (s.m_boundingBox ≠ obj →
      (s.setBoundingBox obj).boundingBox = obj ∧
      (∀ p, s.m_boundingBox = some p →
        ((s.setBoundingBox obj).rectangles.destroyed p = true ↔
          s.rectangles.parentOf p = some (Ref.object s.self))) ∧
      (s.boundingBoxOwned = false →
        s.setBoundingBox obj =
          { s with m_boundingBox := obj,
                   emitted := s.emitted ++ [LocationSignal.boundingBoxChanged] }) ∧
      (∀ p, s.m_boundingBox = some p → s.boundingBoxOwned = true →
        s.setBoundingBox obj =
          { s.delete (Ref.rectangle p) with
            m_boundingBox := obj, emitted := s.emitted ++ [LocationSignal.boundingBoxChanged] }) ∧
      (∀ p, s.m_boundingBox = some p → unchangedOutside s (s.setBoundingBox obj) (Ref.rectangle p)) ∧
      raised s (s.setBoundingBox obj) LocationSignal.boundingBoxChanged = 1 ∧
      raised s (s.setBoundingBox obj) LocationSignal.coordinateChanged = 0 ∧
      raised s (s.setBoundingBox obj) LocationSignal.addressChanged = 0 ∧
      (s.setBoundingBox obj).coordinate = s.coordinate ∧
      (s.setBoundingBox obj).address = s.address) := by
  refine ⟨setBoundingBox_of_eq s obj, fun hne => ?_⟩
  rcases boundingBoxOwned_cases s with ⟨h, p, hm, hp⟩ | ⟨h, hnp⟩
  · have e := setBoundingBox_of_owned s obj p hne hm h
    have hlp := hl p hm
    have hsame : ∀ p', s.m_boundingBox = some p' → p' = p := by
      intro p' hp'
      rw [hm] at hp'
      exact (Option.some.inj hp').symm
    refine ⟨?_, ?_, ?_, ?_, ?_, ?_, ?_, ?_, ?_, ?_⟩
    · rw [e]; rfl
    · intro p' hp'
      rw [hsame p' hp']
      refine ⟨fun _ => hp, fun _ => ?_⟩
      rw [e]
      exact Heap.destroyed_destroyWhere _ _ _ hlp (inTree_self s _ _)
    · intro hf
      rw [h] at hf
      cases hf
    · intro p' hp' _
      rw [hsame p' hp']
      exact e
    · intro p' hp'
      rw [hsame p' hp', e]
      exact delete_unchangedOutside s _
    · rw [e]; exact count_append_singleton _ _ _
    · rw [e]; exact count_append_singleton _ _ _
    · rw [e]; exact count_append_singleton _ _ _
    · rw [e]; rfl
    · rw [e]; rfl
  · have e := setBoundingBox_of_not_owned s obj hne h
    refine ⟨?_, ?_, ?_, ?_, ?_, ?_, ?_, ?_, ?_, ?_⟩
    · rw [e]; rfl
    · intro p hm
      rw [e]
      show s.rectangles.destroyed p = true ↔ _
      rw [Heap.not_destroyed_of_live _ _ (hl p hm)]
      simp only [Bool.false_eq_true, false_iff]
      exact hnp p hm
    · intro _
      exact e
    · intro _ _ hf
      rw [h] at hf
      cases hf
    · intro p _
      rw [e]
      exact ⟨fun _ _ => rfl, fun _ _ => rfl, fun _ _ => rfl, fun _ _ => rfl⟩
    · rw [e]; exact count_append_singleton _ _ _
    · rw [e]; exact count_append_singleton _ _ _
    · rw [e]; exact count_append_singleton _ _ _
    · rw [e]; rfl
    · rw [e]; rfl

theorem setBoundingBox_pointer (s : QDeclarativeGeoLocation A C R) (x : Option Nat) :
    (s.setBoundingBox x).m_boundingBox = x := by
  unfold setBoundingBox
  split
  · assumption
  · rfl

theorem setBoundingBox_self (s : QDeclarativeGeoLocation A C R) (x : Option Nat) :
    (s.setBoundingBox x).self = s.self := by
  rcases setBoundingBox_cases s x with e | e | ⟨p, _, e⟩ <;> (rw [e]; try rfl)

theorem setBoundingBox_others (s : QDeclarativeGeoLocation A C R) (x : Option Nat) :
    (s.setBoundingBox x).m_coordinate = s.m_coordinate ∧
    (s.setBoundingBox x).m_address = s.m_address := by
  rcases setBoundingBox_cases s x with e | e | ⟨p, _, e⟩ <;> (rw [e]; try exact ⟨rfl, rfl⟩)

theorem setBoundingBox_emitted (s : QDeclarativeGeoLocation A C R) (x : Option Nat) :
    (s.setBoundingBox x).emitted =
      s.emitted ++ (if s.m_boundingBox = x then [] else [LocationSignal.boundingBoxChanged]) := by
  by_cases hne : s.m_boundingBox = x
  · rw [setBoundingBox_of_eq s x hne]; simp [hne]
  · rcases boundingBoxOwned_cases s with ⟨h, p, hm, _⟩ | ⟨h, _⟩
    · rw [setBoundingBox_of_owned s x p hne hm h]; simp [hne]
    · rw [setBoundingBox_of_not_owned s x hne h]; simp [hne]

theorem setBoundingBox_later (s : QDeclarativeGeoLocation A C R) (x : Option Nat) :
    Later s (s.setBoundingBox x) := by
  rcases setBoundingBox_cases s x with e | e | ⟨p, _, e⟩
  · rw [e]; exact Later.refl s
  · rw [e]; exact Later.of_heaps (Later.refl s) rfl rfl rfl rfl rfl
  · rw [e]; exact Later.of_heaps (delete_later s _) rfl rfl rfl rfl rfl

end QDeclarativeGeoLocation

namespace QDeclarativeGeoLocation

variable {A C R : Type}

theorem setLocationAddress_later (s : QDeclarativeGeoLocation A C R) (v : A) :
    Later s (s.setLocationAddress v) := by
  obtain ⟨_, _, e3, e4⟩ := setLocationAddress_others s v
  have hg := setLocationAddress_grows s v
  refine ⟨setLocationAddress_self s v, ?_, hg, ?_, ?_⟩
  · rw [setLocationAddress_objects]; exact fun _ => rfl
  · rw [e3]; exact ⟨Nat.le_refl _, fun _ => Or.inl rfl⟩
  · rw [e4]; exact ⟨Nat.le_refl _, fun _ => Or.inl rfl⟩

theorem setLocationCoordinate_later (s : QDeclarativeGeoLocation A C R) (v : C) :
    Later s (s.setLocationCoordinate v) := by
  obtain ⟨_, _, e3, e4⟩ := setLocationCoordinate_others s v
  have hg := setLocationCoordinate_grows s v
  refine ⟨setLocationCoordinate_self s v, ?_, ?_, hg, ?_⟩
  · rw [setLocationCoordinate_objects]; exact fun _ => rfl
  · rw [e3]; exact ⟨Nat.le_refl _, fun _ => Or.inl rfl⟩
  · rw [e4]; exact ⟨Nat.le_refl _, fun _ => Or.inl rfl⟩

theorem setLocationBoundingBox_later (s : QDeclarativeGeoLocation A C R) (v : R) :
    Later s (s.setLocationBoundingBox v) := by
  obtain ⟨_, _, e3, e4⟩ := setLocationBoundingBox_others s v
  have hg := setLocationBoundingBox_grows s v
  refine ⟨setLocationBoundingBox_self s v, ?_, ?_, ?_, hg⟩
  · rw [setLocationBoundingBox_objects]; exact fun _ => rfl
  · rw [e4]; exact ⟨Nat.le_refl _, fun _ => Or.inl rfl⟩
  · rw [e3]; exact ⟨Nat.le_refl _, fun _ => Or.inl rfl⟩

end QDeclarativeGeoLocation

namespace QDeclarativeGeoLocation

variable {A C R : Type}

/-!
`setLocation` as a whole
-/

theorem coordinateOwned_setLocationAddress (s : QDeclarativeGeoLocation A C R) (v : A) :
    (s.setLocationAddress v).coordinateOwned = s.coordinateOwned := by
  obtain ⟨h1, _, h3, _⟩ := setLocationAddress_others s v
  unfold coordinateOwned
  rw [h1, h3, setLocationAddress_self]

theorem boundingBoxOwned_setLocationAddress (s : QDeclarativeGeoLocation A C R) (v : A) :
    (s.setLocationAddress v).boundingBoxOwned = s.boundingBoxOwned := by
  obtain ⟨_, h2, _, h4⟩ := setLocationAddress_others s v
  unfold boundingBoxOwned
  rw [h2, h4, setLocationAddress_self]

theorem boundingBoxOwned_setLocationCoordinate (s : QDeclarativeGeoLocation A C R) (v : C) :
    (s.setLocationCoordinate v).boundingBoxOwned = s.boundingBoxOwned := by
  obtain ⟨_, h2, _, h4⟩ := setLocationCoordinate_others s v
  unfold boundingBoxOwned
  rw [h2, h4, setLocationCoordinate_self]

theorem addressOwned_setLocationCoordinate (s : QDeclarativeGeoLocation A C R) (v : C) :
    (s.setLocationCoordinate v).addressOwned = s.addressOwned := by
  obtain ⟨h1, _, h3, _⟩ := setLocationCoordinate_others s v
  unfold addressOwned
  rw [h1, h3, setLocationCoordinate_self]

theorem addressOwned_setLocationBoundingBox (s : QDeclarativeGeoLocation A C R) (v : R) :
    (s.setLocationBoundingBox v).addressOwned = s.addressOwned := by
  obtain ⟨_, h2, _, h4⟩ := setLocationBoundingBox_others s v
  unfold addressOwned
  rw [h2, h4, setLocationBoundingBox_self]

theorem coordinateOwned_setLocationBoundingBox (s : QDeclarativeGeoLocation A C R) (v : R) :
    (s.setLocationBoundingBox v).coordinateOwned = s.coordinateOwned := by
  obtain ⟨h1, _, h3, _⟩ := setLocationBoundingBox_others s v
  unfold coordinateOwned
  rw [h1, h3, setLocationBoundingBox_self]

theorem setLocation_self (s : QDeclarativeGeoLocation A C R) (v : QGeoLocation A C R) :
    (s.setLocation v).self = s.self := by
  unfold setLocation
  rw [setLocationBoundingBox_self, setLocationCoordinate_self, setLocationAddress_self]

theorem setLocation_owned (s : QDeclarativeGeoLocation A C R) (v : QGeoLocation A C R) :
    (s.setLocation v).addressOwned = true ∧ (s.setLocation v).coordinateOwned = true ∧
    (s.setLocation v).boundingBoxOwned = true := by
  unfold setLocation
  refine ⟨?_, ?_, ?_⟩
  · rw [addressOwned_setLocationBoundingBox, addressOwned_setLocationCoordinate]
    exact setLocationAddress_owned s _
  · rw [coordinateOwned_setLocationBoundingBox]
    exact setLocationCoordinate_owned _ _
  · exact setLocationBoundingBox_owned _ _

theorem setLocation_emitted (s : QDeclarativeGeoLocation A C R) (v : QGeoLocation A C R) :
    (s.setLocation v).emitted =
      s.emitted ++ (if s.addressOwned then [] else [LocationSignal.addressChanged])
        ++ (if s.coordinateOwned then [] else [LocationSignal.coordinateChanged])
        ++ (if s.boundingBoxOwned then [] else [LocationSignal.boundingBoxChanged]) := by
  unfold setLocation
  rw [setLocationBoundingBox_emitted, setLocationCoordinate_emitted, setLocationAddress_emitted,
    boundingBoxOwned_setLocationCoordinate, boundingBoxOwned_setLocationAddress,
    coordinateOwned_setLocationAddress]

theorem setLocation_m_address (s : QDeclarativeGeoLocation A C R) (v : QGeoLocation A C R) :
    (s.setLocation v).m_address =
      if s.addressOwned then s.m_address else some s.addresses.length := by
  unfold setLocation
  rw [(setLocationBoundingBox_others _ _).2.1, (setLocationCoordinate_others _ _).1,
    setLocationAddress_pointer]

theorem setLocation_m_coordinate (s : QDeclarativeGeoLocation A C R) (v : QGeoLocation A C R) :
    (s.setLocation v).m_coordinate =
      if s.coordinateOwned then s.m_coordinate else some s.coordinates.length := by
  unfold setLocation
  rw [(setLocationBoundingBox_others _ _).1, setLocationCoordinate_pointer,
    coordinateOwned_setLocationAddress, (setLocationAddress_others _ _).1,
    (setLocationAddress_others _ _).2.2.1]

theorem setLocation_m_boundingBox (s : QDeclarativeGeoLocation A C R) (v : QGeoLocation A C R) :
    (s.setLocation v).m_boundingBox =
      if s.boundingBoxOwned then s.m_boundingBox else some s.rectangles.length := by
  unfold setLocation
  rw [setLocationBoundingBox_pointer, boundingBoxOwned_setLocationCoordinate,
    boundingBoxOwned_setLocationAddress, (setLocationCoordinate_others _ _).2.1,
    (setLocationAddress_others _ _).2.1, (setLocationCoordinate_others _ _).2.2.2,
    (setLocationAddress_others _ _).2.2.2]

theorem foldl_setLocation_stable (vs : List (QGeoLocation A C R)) :
    ∀ s : QDeclarativeGeoLocation A C R,
      s.addressOwned = true → s.coordinateOwned = true → s.boundingBoxOwned = true →
      (vs.foldl setLocation s).m_address = s.m_address ∧
      (vs.foldl setLocation s).m_coordinate = s.m_coordinate ∧
      (vs.foldl setLocation s).m_boundingBox = s.m_boundingBox ∧
      (vs.foldl setLocation s).emitted = s.emitted := by
  induction vs with
  | nil => intro s _ _ _; exact ⟨rfl, rfl, rfl, rfl⟩
  | cons v vs ih =>
    intro s ha hc hb
    obtain ⟨ha1, hc1, hb1⟩ := setLocation_owned s v
    obtain ⟨h1, h2, h3, h4⟩ := ih (s.setLocation v) ha1 hc1 hb1
    simp only [List.foldl_cons]
    rw [h1, h2, h3, h4, setLocation_m_address, setLocation_m_coordinate,
      setLocation_m_boundingBox, setLocation_emitted]
    simp [ha, hc, hb]

theorem setLocation_addresses (s : QDeclarativeGeoLocation A C R) (v : QGeoLocation A C R) :
    (s.setLocation v).addresses = (s.setLocationAddress v.address).addresses := by
  unfold setLocation
  rw [(setLocationBoundingBox_others _ _).2.2.2, (setLocationCoordinate_others _ _).2.2.1]

theorem setLocation_coordinates (s : QDeclarativeGeoLocation A C R) (v : QGeoLocation A C R) :
    (s.setLocation v).coordinates =
      ((s.setLocationAddress v.address).setLocationCoordinate v.coordinate).coordinates := by
  unfold setLocation
  rw [(setLocationBoundingBox_others _ _).2.2.1]

theorem setLocation_later (s : QDeclarativeGeoLocation A C R) (v : QGeoLocation A C R) :
    Later s (s.setLocation v) :=
  ((setLocationAddress_later s _).trans (setLocationCoordinate_later _ _)).trans
    (setLocationBoundingBox_later _ _)

/-!
Sequences of calls
-/

theorem apply_self (s : QDeclarativeGeoLocation A C R) (c : Call A C R) :
    (s.apply c).self = s.self := by
  cases c with
  | setLocation v => exact setLocation_self s v
  | setAddress x => exact setAddress_self s x
  | setCoordinate x => exact setCoordinate_self s x
  | setBoundingBox x => exact setBoundingBox_self s x

theorem apply_later (s : QDeclarativeGeoLocation A C R) (c : Call A C R) :
    Later s (s.apply c) := by
  cases c with
  | setLocation v => exact setLocation_later s v
  | setAddress x => exact setAddress_later s x
  | setCoordinate x => exact setCoordinate_later s x
  | setBoundingBox x => exact setBoundingBox_later s x

theorem run_later (cs : List (Call A C R)) :
    ∀ s : QDeclarativeGeoLocation A C R, Later s (s.run cs) := by
  induction cs with
  | nil => intro s; exact Later.refl s
  | cons c cs ih => intro s; exact (apply_later s c).trans (ih (s.apply c))

end QDeclarativeGeoLocation

/-!
Properties of the Location element
-/

namespace QDeclarativeGeoLocation

variable {A C R : Type}

theorem fieldsLive_parts (s : QDeclarativeGeoLocation A C R) (hl : s.fieldsLive = true) :
    (∀ p, s.m_address = some p → s.addresses.live p = true) ∧
    (∀ p, s.m_coordinate = some p → s.coordinates.live p = true) ∧
    (∀ p, s.m_boundingBox = some p → s.rectangles.live p = true) := by
  unfold fieldsLive at hl
  simp only [Bool.and_eq_true] at hl
  obtain ⟨⟨h1, h2⟩, h3⟩ := hl
  refine ⟨?_, ?_, ?_⟩
  · intro p hp; simpa [hp] using h1
  · intro p hp; simpa [hp] using h2
  · intro p hp; simpa [hp] using h3

/-- C1: for each of `setAddress`, `setCoordinate` and `setBoundingBox`, in a
state whose non-null fields point to objects that exist, and for every
reference `obj` (null included): if `obj` is the current reference, the call
returns the state unchanged; otherwise the accessor returns `obj` afterwards,
the object held before is destroyed exactly when it was owned by the element,
the signal of the field is emitted once and the other two not at all, and the
other two fields are unchanged.  What else the call does: when the object held
before was not owned, nothing but the field and the signal log changes; when
it was owned, the state is the one after `delete`, and every object outside
the tree below the object held before is as it was. -/
theorem setters_contract (s : QDeclarativeGeoLocation A C R) (hl : s.fieldsLive = true)
    (obj : Option Nat) :
    ((s.m_address = obj → s.setAddress obj = s) ∧
     (s.m_address ≠ obj →
      (s.setAddress obj).address = obj ∧
      (∀ p, s.m_address = some p →
        ((s.setAddress obj).addresses.destroyed p = true ↔
          s.addresses.parentOf p = some (Ref.object s.self))) ∧
      (s.addressOwned = false →
        s.setAddress obj =
          { s with m_address := obj,
                   emitted := s.emitted ++ [LocationSignal.addressChanged] }) ∧
      (∀ p, s.m_address = some p → s.addressOwned = true →
        s.setAddress obj =
          { s.delete (Ref.address p) with
            m_address := obj, emitted := s.emitted ++ [LocationSignal.addressChanged] }) ∧
      (∀ p, s.m_address = some p → unchangedOutside s (s.setAddress obj) (Ref.address p)) ∧
      raised s (s.setAddress obj) LocationSignal.addressChanged = 1 ∧
      raised s (s.setAddress obj) LocationSignal.coordinateChanged = 0 ∧
      raised s (s.setAddress obj) LocationSignal.boundingBoxChanged = 0 ∧
      (s.setAddress obj).coordinate = s.coordinate ∧
      (s.setAddress obj).boundingBox = s.boundingBox)) ∧
    ((s.m_coordinate = obj → s.setCoordinate obj = s) ∧
     (s.m_coordinate ≠ obj →
      (s.setCoordinate obj).coordinate = obj ∧
      (∀ p, s.m_coordinate = some p →
        ((s.setCoordinate obj).coordinates.destroyed p = true ↔
          s.coordinates.parentOf p = some (Ref.object s.self))) ∧
      (s.coordinateOwned = false →
        s.setCoordinate obj =
          { s with m_coordinate := obj,
                   emitted := s.emitted ++ [LocationSignal.coordinateChanged] }) ∧
      (∀ p, s.m_coordinate = some p → s.coordinateOwned = true →
        s.setCoordinate obj =
          { s.delete (Ref.coordinate p) with
            m_coordinate := obj,
            emitted := s.emitted ++ [LocationSignal.coordinateChanged] }) ∧
      (∀ p, s.m_coordinate = some p →
        unchangedOutside s (s.setCoordinate obj) (Ref.coordinate p)) ∧
      raised s (s.setCoordinate obj) LocationSignal.coordinateChanged = 1 ∧
      raised s (s.setCoordinate obj) LocationSignal.addressChanged = 0 ∧
      raised s (s.setCoordinate obj) LocationSignal.boundingBoxChanged = 0 ∧
      (s.setCoordinate obj).address = s.address ∧
      (s.setCoordinate obj).boundingBox = s.boundingBox)) ∧
    ((s.m_boundingBox = obj → s.setBoundingBox obj = s) ∧
     (s.m_boundingBox ≠ obj →
      (s.setBoundingBox obj).boundingBox = obj ∧
      (∀ p, s.m_boundingBox = some p →
        ((s.setBoundingBox obj).rectangles.destroyed p = true ↔
          s.rectangles.parentOf p = some (Ref.object s.self))) ∧
      (s.boundingBoxOwned = false →
        s.setBoundingBox obj =
          { s with m_boundingBox := obj,
                   emitted := s.emitted ++ [LocationSignal.boundingBoxChanged] }) ∧
      (∀ p, s.m_boundingBox = some p → s.boundingBoxOwned = true →
        s.setBoundingBox obj =
          { s.delete (Ref.rectangle p) with
            m_boundingBox := obj,
            emitted := s.emitted ++ [LocationSignal.boundingBoxChanged] }) ∧
      (∀ p, s.m_boundingBox = some p →
        unchangedOutside s (s.setBoundingBox obj) (Ref.rectangle p)) ∧
      raised s (s.setBoundingBox obj) LocationSignal.boundingBoxChanged = 1 ∧
      raised s (s.setBoundingBox obj) LocationSignal.addressChanged = 0 ∧
      raised s (s.setBoundingBox obj) LocationSignal.coordinateChanged = 0 ∧
      (s.setBoundingBox obj).address = s.address ∧
      (s.setBoundingBox obj).coordinate = s.coordinate)) := by
  obtain ⟨ha, hc, hb⟩ := fieldsLive_parts s hl
  refine ⟨setAddress_spec s obj ha, setCoordinate_spec s obj hc,
    (setBoundingBox_spec s obj hb).1, fun hne => ?_⟩
  obtain ⟨a1, a2, a3, a4, a5, a6, a7, a8, a9, a10⟩ := (setBoundingBox_spec s obj hb).2 hne
  exact ⟨a1, a2, a3, a4, a5, a6, a8, a7, a10, a9⟩

/-- Witness of C1: replacing the owned address of `exampleLocation` by object 1
destroys object 0 and makes the accessor return object 1. -/
theorem setters_contract_witness :
    exampleLocation.fieldsLive = true ∧
    (exampleLocation.setAddress (some 1)).address = some 1 ∧
    (exampleLocation.setAddress (some 1)).addresses.destroyed 0 = true :=
  ⟨by decide,
   ((setters_contract exampleLocation (by decide) (some 1)).1.2 (by decide)).1,
   (((setters_contract exampleLocation (by decide) (some 1)).1.2 (by decide)).2.1 0 rfl).mpr
     (by decide)⟩

/-- Counterexample to C4 as stated: `x` is the reference the element already
holds (the result of `address()` after construction); both calls return at the
identity check and `addressChanged` is not emitted at all. -/
theorem setAddress_twice_current_reference :
    exampleConstructed.address = some 1 ∧
    raised exampleConstructed ((exampleConstructed.setAddress (some 1)).setAddress (some 1))
      LocationSignal.addressChanged = 0 ∧
    ¬ raised exampleConstructed ((exampleConstructed.setAddress (some 1)).setAddress (some 1))
      LocationSignal.addressChanged = 1 := by
  decide

/-- C4, amended: `setAddress(x); setAddress(x)` emits `addressChanged` exactly
once over the two calls when `x` differs from the reference held before the
first call, and not at all when `x` is that reference; the second call never
emits and leaves the state of the first call unchanged. -/
theorem setAddress_twice (s : QDeclarativeGeoLocation A C R) (x : Option Nat) :
    raised s ((s.setAddress x).setAddress x) LocationSignal.addressChanged
      = (if s.m_address = x then 0 else 1) ∧
    raised (s.setAddress x) ((s.setAddress x).setAddress x) LocationSignal.addressChanged = 0 ∧
    (s.setAddress x).setAddress x = s.setAddress x := by
  have h2 : (s.setAddress x).setAddress x = s.setAddress x := by
    have hp := setAddress_pointer s x
    generalize s.setAddress x = t at hp
    simp [setAddress, hp]
  rw [h2]
  refine ⟨?_, by simp [raised], rfl⟩
  unfold raised
  rw [setAddress_emitted]
  by_cases h : s.m_address = x
  · simp [h]
  · simp only [h, if_false]
    exact count_append_singleton _ _ _

theorem setLocation_location [Inhabited A] [Inhabited C] [Inhabited R]
    (s : QDeclarativeGeoLocation A C R) (src : QGeoLocation A C R) :
    (s.setLocation src).location.1 = src := by
  obtain ⟨pa, hpa, hra⟩ := setLocationAddress_read s src.address
  obtain ⟨pc, hpc, hrc⟩ := setLocationCoordinate_read (s.setLocationAddress src.address)
    src.coordinate
  obtain ⟨pb, hpb, hrb⟩ := setLocationBoundingBox_read
    ((s.setLocationAddress src.address).setLocationCoordinate src.coordinate) src.boundingBox
  have e1 : (s.setLocation src).m_address = some pa := by
    unfold setLocation
    rw [(setLocationBoundingBox_others _ _).2.1, (setLocationCoordinate_others _ _).1, hpa]
  have e2 : (s.setLocation src).addresses = (s.setLocationAddress src.address).addresses :=
    setLocation_addresses s src
  have e3 : (s.setLocation src).m_coordinate = some pc := by
    unfold setLocation
    rw [(setLocationBoundingBox_others _ _).1, hpc]
  have e4 := setLocation_coordinates s src
  have e5 : (s.setLocation src).m_boundingBox = some pb := hpb
  have e6 : (s.setLocation src).rectangles =
      (((s.setLocationAddress src.address).setLocationCoordinate
        src.coordinate).setLocationBoundingBox src.boundingBox).rectangles := rfl
  cases src with
  | mk a c b =>
    simp only [location, e1, e2, e3, e4, e5, e6]
    simp only [hra, hrc, hrb]

/-- C10: for every state and every plain value `src`, `setLocation(src)`
followed by `location()` returns `src`; a Location constructed from `src`
returns `src`, one constructed without a value returns the default value;
`location()` leaves the state unchanged, and a null field contributes the
default value of its type. -/
theorem location_roundtrip [Inhabited A] [Inhabited C] [Inhabited R]
    (s : QDeclarativeGeoLocation A C R) (src : QGeoLocation A C R) (self : Nat)
    (ha : Heap A) (hc : Heap C) (hr : Heap R) (ho : Heap Unit) :
    (s.setLocation src).location.1 = src ∧
    (constructFrom src self ha hc hr ho).location.1 = src ∧
    (construct self ha hc hr ho : QDeclarativeGeoLocation A C R).location.1 = default ∧
    s.location.2 = s ∧
    ({ s with m_address := none }).location.1.address = default ∧
    ({ s with m_coordinate := none }).location.1.coordinate = default ∧
    ({ s with m_boundingBox := none }).location.1.boundingBox = default :=
  ⟨setLocation_location s src, setLocation_location _ src, setLocation_location _ default,
    rfl, rfl, rfl, rfl⟩

/-- C3: in a state whose non-null fields point to objects that exist, and for
any sequence `v, vs` of `setLocation` calls: after the first call every field
is non-null and owned by the element; the reference of each field is the one
held before when the field was owned and a new object otherwise; in the first
call the signal of a field is emitted once when its reference changed and not
at all when it did not; all later calls leave the three references unchanged
and emit nothing.  With `s` the element before the constructor body runs
(`init`), this is a constructed element followed by `setLocation` calls. -/
theorem setLocation_identity (s : QDeclarativeGeoLocation A C R) (hl : s.fieldsLive = true)
    (v : QGeoLocation A C R) (vs : List (QGeoLocation A C R)) :
    ((s.setLocation v).addressOwned = true ∧ (s.setLocation v).coordinateOwned = true ∧
      (s.setLocation v).boundingBoxOwned = true) ∧
    ((s.setLocation v).address = (if s.addressOwned then s.address else some s.addresses.length) ∧
      (s.setLocation v).coordinate =
        (if s.coordinateOwned then s.coordinate else some s.coordinates.length) ∧
      (s.setLocation v).boundingBox =
        (if s.boundingBoxOwned then s.boundingBox else some s.rectangles.length)) ∧
    (raised s (s.setLocation v) LocationSignal.addressChanged =
        (if (s.setLocation v).address = s.address then 0 else 1) ∧
      raised s (s.setLocation v) LocationSignal.coordinateChanged =
        (if (s.setLocation v).coordinate = s.coordinate then 0 else 1) ∧
      raised s (s.setLocation v) LocationSignal.boundingBoxChanged =
        (if (s.setLocation v).boundingBox = s.boundingBox then 0 else 1)) ∧
    ((vs.foldl setLocation (s.setLocation v)).address = (s.setLocation v).address ∧
      (vs.foldl setLocation (s.setLocation v)).coordinate = (s.setLocation v).coordinate ∧
      (vs.foldl setLocation (s.setLocation v)).boundingBox = (s.setLocation v).boundingBox ∧
      (vs.foldl setLocation (s.setLocation v)).emitted = (s.setLocation v).emitted) := by
  obtain ⟨la, lc, lb⟩ := fieldsLive_parts s hl
  obtain ⟨oa, oc, ob⟩ := setLocation_owned s v
  refine ⟨⟨oa, oc, ob⟩, ⟨setLocation_m_address s v, setLocation_m_coordinate s v,
    setLocation_m_boundingBox s v⟩, ⟨?_, ?_, ?_⟩, foldl_setLocation_stable vs _ oa oc ob⟩
  · unfold raised address
    rw [setLocation_emitted, setLocation_m_address]
    rcases addressOwned_cases s with ⟨h, _⟩ | ⟨h, _⟩
    · cases hc : s.coordinateOwned <;> cases hb : s.boundingBoxOwned <;>
        simp [h, List.count_cons]
    · have hne : ¬ (some s.addresses.length = s.m_address) := by
        intro e
        exact Nat.lt_irrefl _ (Heap.lt_length_of_live _ _ (la _ e.symm))
      cases hc : s.coordinateOwned <;> cases hb : s.boundingBoxOwned <;>
        simp [h, hne, List.count_cons]
  · unfold raised coordinate
    rw [setLocation_emitted, setLocation_m_coordinate]
    rcases coordinateOwned_cases s with ⟨h, _⟩ | ⟨h, _⟩
    · cases ha : s.addressOwned <;> cases hb : s.boundingBoxOwned <;>
        simp [h, List.count_cons]
    · have hne : ¬ (some s.coordinates.length = s.m_coordinate) := by
        intro e
        exact Nat.lt_irrefl _ (Heap.lt_length_of_live _ _ (lc _ e.symm))
      cases ha : s.addressOwned <;> cases hb : s.boundingBoxOwned <;>
        simp [h, hne, List.count_cons]
  · unfold raised boundingBox
    rw [setLocation_emitted, setLocation_m_boundingBox]
    rcases boundingBoxOwned_cases s with ⟨h, _⟩ | ⟨h, _⟩
    · cases ha : s.addressOwned <;> cases hc : s.coordinateOwned <;>
        simp [h, List.count_cons]
    · have hne : ¬ (some s.rectangles.length = s.m_boundingBox) := by
        intro e
        exact Nat.lt_irrefl _ (Heap.lt_length_of_live _ _ (lb _ e.symm))
      cases ha : s.addressOwned <;> cases hc : s.coordinateOwned <;>
        simp [h, hne, List.count_cons]

/-- Witness of C3: a Location constructed from (1, 2, 3) and then assigned
(4, 5, 6) and (7, 8, 9) keeps the address object created by the constructor
and has emitted each signal once, in the constructor. -/
theorem setLocation_identity_witness :
    (init 5 exampleAddresses [] [] [] : QDeclarativeGeoLocation Nat Nat Nat).fieldsLive = true ∧
    ([{ address := 4, coordinate := 5, boundingBox := 6 },
      { address := 7, coordinate := 8, boundingBox := 9 }].foldl setLocation
        exampleConstructed).address = exampleConstructed.address ∧
    ([{ address := 4, coordinate := 5, boundingBox := 6 },
      { address := 7, coordinate := 8, boundingBox := 9 }].foldl setLocation
        exampleConstructed).emitted = exampleConstructed.emitted ∧
    exampleConstructed.emitted = [LocationSignal.addressChanged,
      LocationSignal.coordinateChanged, LocationSignal.boundingBoxChanged] :=
  ⟨by decide,
   (setLocation_identity (init 5 exampleAddresses [] [] []) (by decide)
     { address := 1, coordinate := 2, boundingBox := 3 }
     [{ address := 4, coordinate := 5, boundingBox := 6 },
      { address := 7, coordinate := 8, boundingBox := 9 }]).2.2.2.1,
   (setLocation_identity (init 5 exampleAddresses [] [] []) (by decide)
     { address := 1, coordinate := 2, boundingBox := 3 }
     [{ address := 4, coordinate := 5, boundingBox := 6 },
      { address := 7, coordinate := 8, boundingBox := 9 }]).2.2.2.2.2.2,
   by decide⟩

theorem setAddress_parents (s : QDeclarativeGeoLocation A C R) (x : Option Nat) (r : Ref) :
    (s.setAddress x).parentOfRef r = s.parentOfRef r := by
  rcases setAddress_cases s x with e | e | ⟨p, _, e⟩
  · rw [e]
  · rw [e]; cases r <;> rfl
  · rw [e, ← parentOfRef_delete s (Ref.address p) r]; cases r <;> rfl

theorem setCoordinate_parents (s : QDeclarativeGeoLocation A C R) (x : Option Nat) (r : Ref) :
    (s.setCoordinate x).parentOfRef r = s.parentOfRef r := by
  rcases setCoordinate_cases s x with e | e | ⟨p, _, e⟩
  · rw [e]
  · rw [e]; cases r <;> rfl
  · rw [e, ← parentOfRef_delete s (Ref.coordinate p) r]; cases r <;> rfl

theorem setBoundingBox_parents (s : QDeclarativeGeoLocation A C R) (x : Option Nat) (r : Ref) :
    (s.setBoundingBox x).parentOfRef r = s.parentOfRef r := by
  rcases setBoundingBox_cases s x with e | e | ⟨p, _, e⟩
  · rw [e]
  · rw [e]; cases r <;> rfl
  · rw [e, ← parentOfRef_delete s (Ref.rectangle p) r]; cases r <;> rfl

theorem addressOwned_congr (s s1 : QDeclarativeGeoLocation A C R)
    (e0 : s1.self = s.self) (e1 : s1.m_address = s.m_address)
    (e2 : ∀ r, s1.parentOfRef r = s.parentOfRef r) : s1.addressOwned = s.addressOwned := by
  unfold addressOwned
  rw [e1, e0]
  cases s.m_address with
  | none => rfl
  | some p =>
    have := e2 (Ref.address p)
    simp only [parentOfRef] at this
    simp only [this]

theorem coordinateOwned_congr (s s1 : QDeclarativeGeoLocation A C R)
    (e0 : s1.self = s.self) (e1 : s1.m_coordinate = s.m_coordinate)
    (e2 : ∀ r, s1.parentOfRef r = s.parentOfRef r) :
    s1.coordinateOwned = s.coordinateOwned := by
  unfold coordinateOwned
  rw [e1, e0]
  cases s.m_coordinate with
  | none => rfl
  | some p =>
    have := e2 (Ref.coordinate p)
    simp only [parentOfRef] at this
    simp only [this]

theorem boundingBoxOwned_congr (s s1 : QDeclarativeGeoLocation A C R)
    (e0 : s1.self = s.self) (e1 : s1.m_boundingBox = s.m_boundingBox)
    (e2 : ∀ r, s1.parentOfRef r = s.parentOfRef r) :
    s1.boundingBoxOwned = s.boundingBoxOwned := by
  unfold boundingBoxOwned
  rw [e1, e0]
  cases s.m_boundingBox with
  | none => rfl
  | some p =>
    have := e2 (Ref.rectangle p)
    simp only [parentOfRef] at this
    simp only [this]

/-- Counterexample to C5 as stated: a Location is constructed and then given,
through `setAddress`, an address object whose parent is null; the field is then
neither null nor owned by the element, and the parent of the object is still
null. -/
theorem setter_does_not_take_ownership :
    (exampleConstructed.run [Call.setAddress (some 0)]).address = some 0 ∧
    (exampleConstructed.run [Call.setAddress (some 0)]).addresses.parentOf 0 = none ∧
    ¬ ((exampleConstructed.run [Call.setAddress (some 0)]).address = none ∨
       (exampleConstructed.run [Call.setAddress (some 0)]).addressOwned = true) := by
  decide

theorem run_snoc (s : QDeclarativeGeoLocation A C R) (cs : List (Call A C R)) (c : Call A C R) :
    s.run (cs ++ [c]) = (s.run cs).apply c := by
  simp [run, List.foldl_append]

theorem run_field_address (s0 : QDeclarativeGeoLocation A C R)
    (h0 : s0.m_address = none ∨ s0.addressOwned = true) (cs : List (Call A C R)) :
    (s0.run cs).m_address = none ∨ (s0.run cs).addressOwned = true ∨
      ∃ p, Call.setAddress (some p) ∈ cs ∧ (s0.run cs).m_address = some p := by
  induction cs using List.reverseRecOn with
  | nil => rcases h0 with h | h
           · exact Or.inl h
           · exact Or.inr (Or.inl h)
  | append_singleton cs c ih =>
    rw [run_snoc]
    have keep : ∀ s1 : QDeclarativeGeoLocation A C R,
        s1.m_address = (s0.run cs).m_address → s1.addressOwned = (s0.run cs).addressOwned →
        s1.m_address = none ∨ s1.addressOwned = true ∨
          ∃ p, Call.setAddress (some p) ∈ cs ++ [c] ∧ s1.m_address = some p := by
      intro s1 e1 eo
      rw [eo, e1]
      rcases ih with h | h | ⟨p, hp, h⟩
      · exact Or.inl h
      · exact Or.inr (Or.inl h)
      · exact Or.inr (Or.inr ⟨p, by simp [hp], h⟩)
    cases c with
    | setLocation v => exact Or.inr (Or.inl (setLocation_owned _ v).1)
    | setAddress x =>
      cases x with
      | none => exact Or.inl (setAddress_pointer _ _)
      | some p => exact Or.inr (Or.inr ⟨p, by simp, setAddress_pointer _ _⟩)
    | setCoordinate x =>
      exact keep _ (setCoordinate_others _ x).1
        (addressOwned_congr _ _ (setCoordinate_self _ x) (setCoordinate_others _ x).1
          (setCoordinate_parents _ x))
    | setBoundingBox x =>
      exact keep _ (setBoundingBox_others _ x).2
        (addressOwned_congr _ _ (setBoundingBox_self _ x) (setBoundingBox_others _ x).2
          (setBoundingBox_parents _ x))

theorem run_field_coordinate (s0 : QDeclarativeGeoLocation A C R)
    (h0 : s0.m_coordinate = none ∨ s0.coordinateOwned = true) (cs : List (Call A C R)) :
    (s0.run cs).m_coordinate = none ∨ (s0.run cs).coordinateOwned = true ∨
      ∃ p, Call.setCoordinate (some p) ∈ cs ∧ (s0.run cs).m_coordinate = some p := by
  induction cs using List.reverseRecOn with
  | nil => rcases h0 with h | h
           · exact Or.inl h
           · exact Or.inr (Or.inl h)
  | append_singleton cs c ih =>
    rw [run_snoc]
    have keep : ∀ s1 : QDeclarativeGeoLocation A C R,
        s1.m_coordinate = (s0.run cs).m_coordinate →
        s1.coordinateOwned = (s0.run cs).coordinateOwned →
        s1.m_coordinate = none ∨ s1.coordinateOwned = true ∨
          ∃ p, Call.setCoordinate (some p) ∈ cs ++ [c] ∧ s1.m_coordinate = some p := by
      intro s1 e1 eo
      rw [eo, e1]
      rcases ih with h | h | ⟨p, hp, h⟩
      · exact Or.inl h
      · exact Or.inr (Or.inl h)
      · exact Or.inr (Or.inr ⟨p, by simp [hp], h⟩)
    cases c with
    | setLocation v => exact Or.inr (Or.inl (setLocation_owned _ v).2.1)
    | setCoordinate x =>
      cases x with
      | none => exact Or.inl (setCoordinate_pointer _ _)
      | some p => exact Or.inr (Or.inr ⟨p, by simp, setCoordinate_pointer _ _⟩)
    | setAddress x =>
      exact keep _ (setAddress_others _ x).1
        (coordinateOwned_congr _ _ (setAddress_self _ x) (setAddress_others _ x).1
          (setAddress_parents _ x))
    | setBoundingBox x =>
      exact keep _ (setBoundingBox_others _ x).1
        (coordinateOwned_congr _ _ (setBoundingBox_self _ x) (setBoundingBox_others _ x).1
          (setBoundingBox_parents _ x))

theorem run_field_boundingBox (s0 : QDeclarativeGeoLocation A C R)
    (h0 : s0.m_boundingBox = none ∨ s0.boundingBoxOwned = true) (cs : List (Call A C R)) :
    (s0.run cs).m_boundingBox = none ∨ (s0.run cs).boundingBoxOwned = true ∨
      ∃ p, Call.setBoundingBox (some p) ∈ cs ∧ (s0.run cs).m_boundingBox = some p := by
  induction cs using List.reverseRecOn with
  | nil => rcases h0 with h | h
           · exact Or.inl h
           · exact Or.inr (Or.inl h)
  | append_singleton cs c ih =>
    rw [run_snoc]
    have keep : ∀ s1 : QDeclarativeGeoLocation A C R,
        s1.m_boundingBox = (s0.run cs).m_boundingBox →
        s1.boundingBoxOwned = (s0.run cs).boundingBoxOwned →
        s1.m_boundingBox = none ∨ s1.boundingBoxOwned = true ∨
          ∃ p, Call.setBoundingBox (some p) ∈ cs ++ [c] ∧ s1.m_boundingBox = some p := by
      intro s1 e1 eo
      rw [eo, e1]
      rcases ih with h | h | ⟨p, hp, h⟩
      · exact Or.inl h
      · exact Or.inr (Or.inl h)
      · exact Or.inr (Or.inr ⟨p, by simp [hp], h⟩)
    cases c with
    | setLocation v => exact Or.inr (Or.inl (setLocation_owned _ v).2.2)
    | setBoundingBox x =>
      cases x with
      | none => exact Or.inl (setBoundingBox_pointer _ _)
      | some p => exact Or.inr (Or.inr ⟨p, by simp, setBoundingBox_pointer _ _⟩)
    | setAddress x =>
      exact keep _ (setAddress_others _ x).2
        (boundingBoxOwned_congr _ _ (setAddress_self _ x) (setAddress_others _ x).2
          (setAddress_parents _ x))
    | setCoordinate x =>
      exact keep _ (setCoordinate_others _ x).2
        (boundingBoxOwned_congr _ _ (setCoordinate_self _ x) (setCoordinate_others _ x).2
          (setCoordinate_parents _ x))

/-- C5, amended: in every state reachable from construction by any sequence of
`setLocation`, `setAddress`, `setCoordinate` and `setBoundingBox` calls, each
of the three fields is null, or a sub-object owned by this element, or a
reference that was passed to the setter of that field in the sequence; and no
call changes the parent of an object that existed at construction, so a
setter adopts the reference without taking ownership. -/
theorem reachable_fields (src : QGeoLocation A C R) (self : Nat) (ha : Heap A) (hc : Heap C)
    (hr : Heap R) (ho : Heap Unit) (cs : List (Call A C R)) :
    (((constructFrom src self ha hc hr ho).run cs).address = none ∨
      ((constructFrom src self ha hc hr ho).run cs).addressOwned = true ∨
      ∃ p, Call.setAddress (some p) ∈ cs ∧
        ((constructFrom src self ha hc hr ho).run cs).address = some p) ∧
    (((constructFrom src self ha hc hr ho).run cs).coordinate = none ∨
      ((constructFrom src self ha hc hr ho).run cs).coordinateOwned = true ∨
      ∃ p, Call.setCoordinate (some p) ∈ cs ∧
        ((constructFrom src self ha hc hr ho).run cs).coordinate = some p) ∧
    (((constructFrom src self ha hc hr ho).run cs).boundingBox = none ∨
      ((constructFrom src self ha hc hr ho).run cs).boundingBoxOwned = true ∨
      ∃ p, Call.setBoundingBox (some p) ∈ cs ∧
        ((constructFrom src self ha hc hr ho).run cs).boundingBox = some p) ∧
    (∀ q, q < ha.length →
      ((constructFrom src self ha hc hr ho).run cs).addresses.parentOf q = ha.parentOf q) ∧
    (∀ q, q < hc.length →
      ((constructFrom src self ha hc hr ho).run cs).coordinates.parentOf q = hc.parentOf q) ∧
    (∀ q, q < hr.length →
      ((constructFrom src self ha hc hr ho).run cs).rectangles.parentOf q = hr.parentOf q) ∧
    (∀ q, ((constructFrom src self ha hc hr ho).run cs).objects.parentOf q = ho.parentOf q) := by
  obtain ⟨oa, oc, ob⟩ := setLocation_owned (init self ha hc hr ho) src
  obtain ⟨_, p0, ⟨_, p1⟩, ⟨_, p2⟩, ⟨_, p3⟩⟩ :=
    run_later (Call.setLocation src :: cs) (init self ha hc hr ho)
  refine ⟨run_field_address _ (Or.inr oa) cs, run_field_coordinate _ (Or.inr oc) cs,
    run_field_boundingBox _ (Or.inr ob) cs, ?_, ?_, ?_, p0⟩
  · intro q hq
    rcases p1 q with e | ⟨hl, _⟩
    · exact e
    · exact absurd hq (Nat.not_lt.mpr hl)
  · intro q hq
    rcases p2 q with e | ⟨hl, _⟩
    · exact e
    · exact absurd hq (Nat.not_lt.mpr hl)
  · intro q hq
    rcases p3 q with e | ⟨hl, _⟩
    · exact e
    · exact absurd hq (Nat.not_lt.mpr hl)

end QDeclarativeGeoLocation

/-!
Signal relay of the place manager
-/

namespace World

theorem activate_frame (w : World) (c : Connection) (e : EngineSignal) :
    (w.activate c e).connections = w.connections ∧ (w.activate c e).turn = w.turn ∧
    (w.activate c e).callStack = w.callStack ∧ (w.activate c e).parents = w.parents ∧
    (w.activate c e).engineCalls = w.engineCalls ∧ (w.activate c e).metaTypes = w.metaTypes := by
  unfold activate
  split <;> exact ⟨rfl, rfl, rfl, rfl, rfl, rfl⟩

theorem foldl_activate_frame (e : EngineSignal) (l : List Connection) :
    ∀ w : World,
      (l.foldl (fun w c => w.activate c e) w).connections = w.connections ∧
      (l.foldl (fun w c => w.activate c e) w).turn = w.turn ∧
      (l.foldl (fun w c => w.activate c e) w).callStack = w.callStack ∧
      (l.foldl (fun w c => w.activate c e) w).parents = w.parents ∧
      (l.foldl (fun w c => w.activate c e) w).engineCalls = w.engineCalls ∧
      (l.foldl (fun w c => w.activate c e) w).metaTypes = w.metaTypes := by
  induction l with
  | nil => intro w; exact ⟨rfl, rfl, rfl, rfl, rfl, rfl⟩
  | cons c l ih =>
    intro w
    obtain ⟨h1, h2, h3, h4, h5, h6⟩ := ih (w.activate c e)
    obtain ⟨g1, g2, g3, g4, g5, g6⟩ := activate_frame w c e
    simp only [List.foldl_cons]
    exact ⟨h1.trans g1, h2.trans g2, h3.trans g3, h4.trans g4, h5.trans g5, h6.trans g6⟩

theorem emit_frame (w : World) (sender : Nat) (e : EngineSignal) :
    (w.emit sender e).connections = w.connections ∧ (w.emit sender e).turn = w.turn ∧
    (w.emit sender e).callStack = w.callStack ∧ (w.emit sender e).parents = w.parents ∧
    (w.emit sender e).engineCalls = w.engineCalls ∧ (w.emit sender e).metaTypes = w.metaTypes :=
  foldl_activate_frame e _ w

theorem foldl_emit_frame (sender : Nat) (es : List EngineSignal) :
    ∀ w : World,
      (es.foldl (fun w e => w.emit sender e) w).connections = w.connections ∧
      (es.foldl (fun w e => w.emit sender e) w).turn = w.turn ∧
      (es.foldl (fun w e => w.emit sender e) w).callStack = w.callStack ∧
      (es.foldl (fun w e => w.emit sender e) w).parents = w.parents ∧
      (es.foldl (fun w e => w.emit sender e) w).engineCalls = w.engineCalls ∧
      (es.foldl (fun w e => w.emit sender e) w).metaTypes = w.metaTypes := by
  induction es with
  | nil => intro w; exact ⟨rfl, rfl, rfl, rfl, rfl, rfl⟩
  | cons e es ih =>
    intro w
    obtain ⟨h1, h2, h3, h4, h5, h6⟩ := ih (w.emit sender e)
    obtain ⟨g1, g2, g3, g4, g5, g6⟩ := emit_frame w sender e
    simp only [List.foldl_cons]
    exact ⟨h1.trans g1, h2.trans g2, h3.trans g3, h4.trans g4, h5.trans g5, h6.trans g6⟩

theorem activate_other (w : World) (c : Connection) (e : EngineSignal) (self : Nat)
    (hc : c.receiver ≠ self) :
    (w.activate c e).observedBy self = w.observedBy self ∧
    (w.activate c e).postedTo self = w.postedTo self := by
  unfold activate
  split
  · simp [observedBy, postedTo, List.filter_append, hc]
  · simp [observedBy, postedTo, List.filter_append, hc]

theorem foldl_activate_other (e : EngineSignal) (self : Nat) (l : List Connection) :
    ∀ w : World, (∀ c ∈ l, c.receiver ≠ self) →
      (l.foldl (fun w c => w.activate c e) w).observedBy self = w.observedBy self ∧
      (l.foldl (fun w c => w.activate c e) w).postedTo self = w.postedTo self := by
  induction l with
  | nil => intro w _; exact ⟨rfl, rfl⟩
  | cons c l ih =>
    intro w hl
    obtain ⟨h1, h2⟩ := ih (w.activate c e) (fun c' hc' => hl c' (List.mem_cons_of_mem _ hc'))
    obtain ⟨g1, g2⟩ := activate_other w c e self (hl c (List.mem_cons_self _ _))
    simp only [List.foldl_cons]
    exact ⟨h1.trans g1, h2.trans g2⟩

/-- The relay of one emission of the engine through the connections of the constructor. -/
theorem emit_relay (w : World) (d self : Nat) (pre : List Connection)
    (hc : w.connections = pre ++ QPlaceManager.connectionsMade d self)
    (hpre : ∀ c ∈ pre, c.receiver ≠ self) (e : EngineSignal) :
    (w.emit d e).observedBy self = w.observedBy self ++
      (if e.isStoreChange then []
       else [{ receiver := self, name := e.name, args := e.args.take 2, turn := w.turn,
               callStack := w.callStack }]) ∧
    (w.emit d e).postedTo self = w.postedTo self ++
      (if e.isStoreChange then [{ receiver := self, name := e.name, args := e.args }]
       else []) := by
  unfold emit
  rw [hc, List.filter_append, List.foldl_append]
  have hpre2 : ∀ c ∈ pre.filter (fun c => decide (c.sender = d ∧ c.signal.name = e.name)),
      c.receiver ≠ self := fun c hcm => hpre c (List.mem_of_mem_filter hcm)
  obtain ⟨o1, o2⟩ := foldl_activate_other e self _ w hpre2
  obtain ⟨_, f2, f3, _⟩ := foldl_activate_frame e
    (pre.filter (fun c => decide (c.sender = d ∧ c.signal.name = e.name))) w
  generalize (pre.filter (fun c => decide (c.sender = d ∧ c.signal.name = e.name))).foldl
    (fun w c => w.activate c e) w = w1 at o1 o2 f2 f3
  rw [← o1, ← o2, ← f2, ← f3]
  cases e <;>
    simp [QPlaceManager.connectionsMade, EngineSignal.name, EngineSignal.args,
      EngineSignal.isStoreChange, activate, observedBy, postedTo, List.filter_append]

theorem foldl_emit_relay (d self : Nat) (pre : List Connection)
    (hpre : ∀ c ∈ pre, c.receiver ≠ self) (es : List EngineSignal) :
    ∀ w : World, w.connections = pre ++ QPlaceManager.connectionsMade d self →
      (es.foldl (fun w e => w.emit d e) w).observedBy self = w.observedBy self ++
        (es.filter (fun e => !e.isStoreChange)).map (fun e =>
          { receiver := self, name := e.name, args := e.args.take 2, turn := w.turn,
            callStack := w.callStack }) ∧
      (es.foldl (fun w e => w.emit d e) w).postedTo self = w.postedTo self ++
        (es.filter (fun e => e.isStoreChange)).map (fun e =>
          { receiver := self, name := e.name, args := e.args }) := by
  induction es with
  | nil => intro w _; simp
  | cons e es ih =>
    intro w hc
    obtain ⟨f1, f2, f3, _⟩ := emit_frame w d e
    obtain ⟨h1, h2⟩ := ih (w.emit d e) (f1.trans hc)
    obtain ⟨g1, g2⟩ := emit_relay w d self pre hc hpre e
    simp only [List.foldl_cons]
    rw [h1, h2, g1, g2, f2, f3]
    cases hs : e.isStoreChange <;> simp [hs, List.filter_cons]

end World

namespace QPlaceManager

theorem call_eq_delegate (m : QPlaceManager) (w : World) (req : Request) (resp : Response) :
    m.call w req resp = m.delegate w req resp := by
  cases req <;> rfl

theorem construct_some (w : World) (self d : Nat) :
    (construct w self (some d)).1 = Except.ok { self := self, d := d } ∧
    (construct w self (some d)).2.connections = w.connections ++ connectionsMade d self ∧
    (construct w self (some d)).2.parents = (d, self) :: w.parents ∧
    (construct w self (some d)).2.posted = w.posted ∧
    (construct w self (some d)).2.observed = w.observed ∧
    (construct w self (some d)).2.engineCalls = w.engineCalls := by
  simp [construct, World.connect, World.setParent, World.registerMetaType, connectionsMade]

theorem delegate_frame (m : QPlaceManager) (w : World) (req : Request) (resp : Response) :
    (m.delegate w req resp).2.1.connections = w.connections ∧
    (m.delegate w req resp).2.1.turn = w.turn ∧
    (m.delegate w req resp).2.1.callStack = w.callStack ∧
    (m.delegate w req resp).2.1.parents = w.parents ∧
    (m.delegate w req resp).2.2 = m := by
  obtain ⟨h1, h2, h3, h4, _⟩ := World.foldl_emit_frame m.d resp.emits
    { w with engineCalls := w.engineCalls ++ [(m.d, req)], callStack := req :: w.callStack }
  refine ⟨h1, h2, ?_, h4, rfl⟩
  show (List.foldl (fun (w : World) e => w.emit m.d e) _ resp.emits).callStack.tail = w.callStack
  rw [h3]
  rfl

theorem step_frame (st : World × QPlaceManager) (x : Step) :
    (step st x).1.connections = st.1.connections ∧ (step st x).1.parents = st.1.parents ∧
    (step st x).1.callStack = st.1.callStack ∧ (step st x).2 = st.2 := by
  cases x with
  | call req resp =>
    obtain ⟨h1, _, h3, h4, h5⟩ := delegate_frame st.2 st.1 req resp
    simp only [step, call_eq_delegate]
    exact ⟨h1, h4, h3, h5⟩
  | emission e =>
    obtain ⟨h1, _, h3, h4, _⟩ := World.emit_frame st.1 st.2.d e
    exact ⟨h1, h4, h3, rfl⟩
  | turn => exact ⟨rfl, rfl, rfl, rfl⟩

theorem run_frame (steps : List Step) :
    ∀ st : World × QPlaceManager,
      (run st steps).1.connections = st.1.connections ∧
      (run st steps).1.parents = st.1.parents ∧
      (run st steps).1.callStack = st.1.callStack ∧ (run st steps).2 = st.2 := by
  induction steps with
  | nil => intro st; exact ⟨rfl, rfl, rfl, rfl⟩
  | cons x steps ih =>
    intro st
    obtain ⟨h1, h2, h3, h4⟩ := ih (step st x)
    obtain ⟨g1, g2, g3, g4⟩ := step_frame st x
    exact ⟨h1.trans g1, h2.trans g2, h3.trans g3, h4.trans g4⟩

/-- What one forwarded call does to the observations and to the event queue of
the manager, given the connections of the constructor. -/
theorem delegate_relay (m : QPlaceManager) (w : World) (pre : List Connection)
    (hc : w.connections = pre ++ connectionsMade m.d m.self)
    (hpre : ∀ c ∈ pre, c.receiver ≠ m.self) (req : Request) (resp : Response) :
    (m.delegate w req resp).2.1.observedBy m.self = w.observedBy m.self ++
      (resp.emits.filter (fun e => !e.isStoreChange)).map (fun e =>
        { receiver := m.self, name := e.name, args := e.args.take 2, turn := w.turn,
          callStack := req :: w.callStack }) ∧
    (m.delegate w req resp).2.1.postedTo m.self = w.postedTo m.self ++
      (resp.emits.filter (fun e => e.isStoreChange)).map (fun e =>
        { receiver := m.self, name := e.name, args := e.args }) := by
  obtain ⟨h1, h2⟩ := World.foldl_emit_relay m.d m.self pre hpre resp.emits
    { w with engineCalls := w.engineCalls ++ [(m.d, req)], callStack := req :: w.callStack } hc
  exact ⟨h1, h2⟩

theorem worldAfter_connections (w0 : World) (self d : Nat) (steps : List Step) :
    (worldAfter w0 self d steps).connections = w0.connections ++ connectionsMade d self := by
  unfold worldAfter
  rw [(run_frame steps _).1]
  exact (construct_some w0 self d).2.1

theorem processEvents_observedBy (w : World) (self : Nat) :
    w.processEvents.observedBy self = w.observedBy self ++
      (w.postedTo self).map (fun ev =>
        { receiver := self, name := ev.name, args := ev.args, turn := w.turn + 1,
          callStack := w.callStack }) := by
  simp only [World.processEvents, World.observedBy, World.postedTo, List.filter_append]
  congr 1
  induction w.posted with
  | nil => rfl
  | cons ev l ih =>
    by_cases h : ev.receiver = self
    · simp [List.filter_cons, h, ih]
    · simp [List.filter_cons, h, ih]

/-- C6: the constructor fails (with the message of `qFatal`) exactly when the
engine is null, and then the world is the one it started in: no parent set, no
type registered, no connection made, no engine operation called.  With an
engine `d` it returns the manager holding `d`, the parent of `d` is the manager,
and after any sequence of public calls, engine emissions and event-loop turns
the manager still holds `d` and is still its parent. -/
theorem construct_fatal_iff_null (w : World) (self : Nat) (engine : Option Nat)
    (steps : List Step) :
    ((∃ msg, (construct w self engine).1 = Except.error msg) ↔ engine = none) ∧
    construct w self none = (Except.error fatalMessage, w) ∧
    (∀ d, (construct w self (some d)).1 = Except.ok { self := self, d := d } ∧
      (construct w self (some d)).2.parentOf d = some self ∧
      (run ((construct w self (some d)).2, { self := self, d := d }) steps).2.d = d ∧
      (run ((construct w self (some d)).2, { self := self, d := d }) steps).1.parentOf d
        = some self) := by
  refine ⟨?_, rfl, ?_⟩
  · cases engine with
    | none => simp [construct]
    | some d => simp [construct]
  · intro d
    obtain ⟨h1, _, h3, _⟩ := construct_some w self d
    obtain ⟨_, g2, _, g4⟩ := run_frame steps
      ((construct w self (some d)).2, ({ self := self, d := d } : QPlaceManager))
    refine ⟨h1, ?_, ?_, ?_⟩
    · simp [World.parentOf, h3, List.lookup]
    · rw [g4]
    · simp only [World.parentOf] at *
      rw [g2, h3]
      simp [List.lookup]

/-- C7: a manager constructed on engine `d` (no earlier connection has the
manager as receiver) forwards `req` after any history `steps`; the engine emits
`resp.emits` while it executes.  During the call the listeners of the manager
observe only the emissions that are not store changes; each store change
(`placeAdded`, `placeUpdated`, `placeRemoved`, `categoryAdded`,
`categoryUpdated`, `categoryRemoved`) is appended to the event queue with the
arguments of the engine.  When the call has returned (call stack and turn as
before the call), the next turn of the event loop delivers the queued events,
in order, in turn `turn + 1` and with `req` no longer on the call stack. -/
theorem store_changes_deferred (w0 : World) (self d : Nat)
    (hfresh : ∀ c ∈ w0.connections, c.receiver ≠ self) (steps : List Step) (req : Request)
    (resp : Response) :
    (((⟨self, d⟩ : QPlaceManager).call (worldAfter w0 self d steps) req resp).2.1.observedBy self
      = (worldAfter w0 self d steps).observedBy self ++
        (resp.emits.filter (fun e => !e.isStoreChange)).map (fun e =>
          { receiver := self, name := e.name, args := e.args.take 2,
            turn := (worldAfter w0 self d steps).turn,
            callStack := req :: (worldAfter w0 self d steps).callStack })) ∧
    (((⟨self, d⟩ : QPlaceManager).call (worldAfter w0 self d steps) req resp).2.1.postedTo self
      = (worldAfter w0 self d steps).postedTo self ++
        (resp.emits.filter (fun e => e.isStoreChange)).map (fun e =>
          { receiver := self, name := e.name, args := e.args })) ∧
    (((⟨self, d⟩ : QPlaceManager).call (worldAfter w0 self d steps) req resp).2.1.callStack
      = (worldAfter w0 self d steps).callStack) ∧
    (((⟨self, d⟩ : QPlaceManager).call (worldAfter w0 self d steps) req resp).2.1.turn
      = (worldAfter w0 self d steps).turn) ∧
    (((⟨self, d⟩ : QPlaceManager).call (worldAfter w0 self d steps) req
        resp).2.1.processEvents.observedBy self
      = ((⟨self, d⟩ : QPlaceManager).call (worldAfter w0 self d steps) req
          resp).2.1.observedBy self ++
        (((worldAfter w0 self d steps).postedTo self).map (fun ev =>
          { receiver := self, name := ev.name, args := ev.args,
            turn := (worldAfter w0 self d steps).turn + 1,
            callStack := (worldAfter w0 self d steps).callStack }) ++
         (resp.emits.filter (fun e => e.isStoreChange)).map (fun e =>
          { receiver := self, name := e.name, args := e.args,
            turn := (worldAfter w0 self d steps).turn + 1,
            callStack := (worldAfter w0 self d steps).callStack }))) ∧
    (((⟨self, d⟩ : QPlaceManager).call (worldAfter w0 self d steps) req
        resp).2.1.processEvents.postedTo self = []) ∧
    (∀ e : EngineSignal, e.isStoreChange = true ↔
      e.name ∈ [SignalName.placeAdded, SignalName.placeUpdated, SignalName.placeRemoved,
        SignalName.categoryAdded, SignalName.categoryUpdated, SignalName.categoryRemoved]) := by
  have hc := worldAfter_connections w0 self d steps
  generalize worldAfter w0 self d steps = w at hc
  obtain ⟨r1, r2⟩ := delegate_relay ⟨self, d⟩ w w0.connections hc hfresh req resp
  obtain ⟨_, f2, f3, _⟩ := delegate_frame ⟨self, d⟩ w req resp
  rw [call_eq_delegate]
  refine ⟨r1, r2, f3, f2, ?_, ?_, ?_⟩
  · rw [processEvents_observedBy, r2, f2, f3]
    simp [List.map_append]
  · simp [World.processEvents, World.postedTo]
  · intro e
    cases e <;> simp [EngineSignal.isStoreChange, EngineSignal.name]

/-- Witness of C7: in `exampleWorld` the manager forwards `savePlace`; the
engine emits `finished` and `placeAdded`.  The listeners see `finished` inside
the call and `placeAdded`, with its argument, in the next turn, outside it. -/
theorem store_changes_deferred_witness :
    (∀ c ∈ World.empty.connections, c.receiver ≠ 1) ∧
    ((exampleManager.call exampleWorld (Request.savePlace 7) savedPlace).2.1.observedBy 1
      = [{ receiver := 1, name := SignalName.finished, args := [Arg.reply 4], turn := 0,
           callStack := [Request.savePlace 7] }]) ∧
    ((exampleManager.call exampleWorld (Request.savePlace 7)
        savedPlace).2.1.processEvents.observedBy 1
      = [{ receiver := 1, name := SignalName.finished, args := [Arg.reply 4], turn := 0,
           callStack := [Request.savePlace 7] },
         { receiver := 1, name := SignalName.placeAdded, args := [Arg.string "p1"], turn := 1,
           callStack := [] }]) :=
  ⟨by simp [World.empty],
   (store_changes_deferred World.empty 1 2 (by simp [World.empty]) [] (Request.savePlace 7)
     savedPlace).1,
   (store_changes_deferred World.empty 1 2 (by simp [World.empty]) [] (Request.savePlace 7)
     savedPlace).2.2.2.2.1⟩

/-- C8: a manager constructed on engine `d` (no earlier connection has the
manager as receiver) has gone through any history `steps`, and the engine emits
the signals `es`, in a turn of its own or while it executes the forwarded
operation `req` (for instance a `search` it fails).  The listeners of the
manager observe the `finished` and `error` emissions among `es` in emission
order, in the current turn and on the call stack of the emission; the event
queue receives only the store changes among `es`, so when `es` consists of
`finished` and `error` emissions the queue is unchanged. -/
theorem reply_events_direct (w0 : World) (self d : Nat)
    (hfresh : ∀ c ∈ w0.connections, c.receiver ≠ self) (steps : List Step)
    (es : List EngineSignal) (req : Request) (result : Nat) :
    ((es.foldl (fun (w : World) e => w.emit d e) (worldAfter w0 self d steps)).observedBy self
      = (worldAfter w0 self d steps).observedBy self ++
        (es.filter (fun e => !e.isStoreChange)).map (fun e =>
          { receiver := self, name := e.name, args := e.args.take 2,
            turn := (worldAfter w0 self d steps).turn,
            callStack := (worldAfter w0 self d steps).callStack })) ∧
    ((es.foldl (fun (w : World) e => w.emit d e) (worldAfter w0 self d steps)).postedTo self
      = (worldAfter w0 self d steps).postedTo self ++
        (es.filter (fun e => e.isStoreChange)).map (fun e =>
          { receiver := self, name := e.name, args := e.args })) ∧
    (((⟨self, d⟩ : QPlaceManager).call (worldAfter w0 self d steps) req
        ⟨result, es⟩).2.1.observedBy self
      = (worldAfter w0 self d steps).observedBy self ++
        (es.filter (fun e => !e.isStoreChange)).map (fun e =>
          { receiver := self, name := e.name, args := e.args.take 2,
            turn := (worldAfter w0 self d steps).turn,
            callStack := req :: (worldAfter w0 self d steps).callStack })) ∧
    ((∀ e ∈ es, e.isStoreChange = false) →
      ((⟨self, d⟩ : QPlaceManager).call (worldAfter w0 self d steps) req
          ⟨result, es⟩).2.1.observedBy self
        = (worldAfter w0 self d steps).observedBy self ++
          es.map (fun e =>
            { receiver := self, name := e.name, args := e.args.take 2,
              turn := (worldAfter w0 self d steps).turn,
              callStack := req :: (worldAfter w0 self d steps).callStack }) ∧
      ((⟨self, d⟩ : QPlaceManager).call (worldAfter w0 self d steps) req
          ⟨result, es⟩).2.1.postedTo self = (worldAfter w0 self d steps).postedTo self) := by
  have hc := worldAfter_connections w0 self d steps
  generalize worldAfter w0 self d steps = w at hc
  obtain ⟨e1, e2⟩ := World.foldl_emit_relay d self w0.connections hfresh es w hc
  obtain ⟨r1, r2⟩ := delegate_relay ⟨self, d⟩ w w0.connections hc hfresh req ⟨result, es⟩
  rw [call_eq_delegate]
  refine ⟨e1, e2, r1, ?_⟩
  intro hes
  have hf1 : es.filter (fun e => !e.isStoreChange) = es := by
    rw [List.filter_eq_self]
    intro e he
    simp [hes e he]
  have hf2 : es.filter (fun e => e.isStoreChange) = [] := by
    rw [List.filter_eq_nil_iff]
    intro e he
    simp [hes e he]
  constructor
  · rw [r1]; simp only [hf1]
  · rw [r2]; simp only [hf2, List.map_nil, List.append_nil]

/-- Witness of C8: in `exampleWorld` the engine fails a search, emitting `error`
and then `finished`; the listeners of the manager see `error` and then
`finished`, both in turn 0 and inside the `search` call, and nothing is queued. -/
theorem reply_events_direct_witness :
    (∀ c ∈ World.empty.connections, c.receiver ≠ 1) ∧
    (∀ e ∈ failedSearch.emits, e.isStoreChange = false) ∧
    ((exampleManager.call exampleWorld (Request.search 5) failedSearch).2.1.observedBy 1
      = [{ receiver := 1, name := SignalName.error, args := [Arg.reply 9, Arg.error 3],
           turn := 0, callStack := [Request.search 5] },
         { receiver := 1, name := SignalName.finished, args := [Arg.reply 9], turn := 0,
           callStack := [Request.search 5] }]) ∧
    ((exampleManager.call exampleWorld (Request.search 5) failedSearch).2.1.postedTo 1 = []) :=
  ⟨by simp [World.empty], by simp [failedSearch, EngineSignal.isStoreChange, EngineSignal.name],
   ((reply_events_direct World.empty 1 2 (by simp [World.empty]) [] failedSearch.emits
      (Request.search 5) 9).2.2.2
      (by simp [failedSearch, EngineSignal.isStoreChange, EngineSignal.name])).1,
   ((reply_events_direct World.empty 1 2 (by simp [World.empty]) [] failedSearch.emits
      (Request.search 5) 9).2.2.2
      (by simp [failedSearch, EngineSignal.isStoreChange, EngineSignal.name])).2⟩

/-- Counterexample to C9 as stated: the engine fails a search with the
description "quota exceeded"; the `error` signal the listeners of the manager
observe carries the reply and the error code and no description. -/
theorem error_description_not_relayed :
    failedSearch.emits.head? = some (EngineSignal.error 9 3 "quota exceeded") ∧
    (exampleManager.call exampleWorld (Request.search 5) failedSearch).2.1.errorsObserved 1
      = [[Arg.reply 9, Arg.error 3]] ∧
    ¬ (∃ args ∈ (exampleManager.call exampleWorld (Request.search 5)
          failedSearch).2.1.errorsObserved 1, Arg.string "quota exceeded" ∈ args) := by
  refine ⟨rfl, rfl, ?_⟩
  have h : (exampleManager.call exampleWorld (Request.search 5) failedSearch).2.1.errorsObserved 1
      = [[Arg.reply 9, Arg.error 3]] := rfl
  rw [h]
  simp

theorem errorsObserved_of_append (w w1 : World) (self : Nat) (l : List Observation)
    (h : w1.observedBy self = w.observedBy self ++ l) :
    w1.errorsObserved self = w.errorsObserved self ++
      (l.filter (fun o => decide (o.name = SignalName.error))).map (fun o => o.args) := by
  simp [World.errorsObserved, h, List.filter_append]

theorem errors_of_direct (self turn : Nat) (stack : List Request) (es : List EngineSignal) :
    (((es.filter (fun e => !e.isStoreChange)).map (fun e =>
        ({ receiver := self, name := e.name, args := e.args.take 2, turn := turn,
           callStack := stack } : Observation))).filter
        (fun o => decide (o.name = SignalName.error))).map (fun o => o.args)
      = errorsEmitted es := by
  induction es with
  | nil => rfl
  | cons e es ih =>
    cases e <;>
      simp [errorsEmitted, List.filter_cons, EngineSignal.isStoreChange, EngineSignal.name,
        EngineSignal.args] at ih ⊢ <;> exact ih

theorem errors_of_queued (self turn : Nat) (stack : List Request) (l : List PostedEvent)
    (h : ∀ ev ∈ l, ev.name ≠ SignalName.error) :
    ((l.map (fun ev =>
        ({ receiver := self, name := ev.name, args := ev.args, turn := turn,
           callStack := stack } : Observation))).filter
        (fun o => decide (o.name = SignalName.error))).map (fun o => o.args) = [] := by
  induction l with
  | nil => rfl
  | cons ev l ih =>
    have h1 : ev.name ≠ SignalName.error := h ev (List.mem_cons_self _ _)
    have h2 := ih (fun ev' hev => h ev' (List.mem_cons_of_mem _ hev))
    simp only [List.map_eq_nil_iff] at h2 ⊢
    simp [List.filter_cons, h1, h2]

theorem queued_not_error (self : Nat) (es : List EngineSignal) :
    ∀ ev ∈ (es.filter (fun e => e.isStoreChange)).map (fun e =>
        ({ receiver := self, name := e.name, args := e.args } : PostedEvent)),
      ev.name ≠ SignalName.error := by
  intro ev hev
  simp only [List.mem_map, List.mem_filter] at hev
  obtain ⟨e, ⟨_, hs⟩, rfl⟩ := hev
  cases e <;> simp [EngineSignal.isStoreChange, EngineSignal.name] at hs ⊢

theorem errorsEmitted_append (l1 l2 : List EngineSignal) :
    errorsEmitted (l1 ++ l2) = errorsEmitted l1 ++ errorsEmitted l2 := by
  simp [errorsEmitted, List.filterMap_append]

theorem run_errors (self d : Nat) (pre : List Connection)
    (hpre : ∀ c ∈ pre, c.receiver ≠ self) (steps : List Step) :
    ∀ w : World, w.connections = pre ++ connectionsMade d self →
      (∀ ev ∈ w.postedTo self, ev.name ≠ SignalName.error) →
      (run (w, ⟨self, d⟩) steps).1.errorsObserved self
        = w.errorsObserved self ++ errorsEmitted (emissions steps) := by
  induction steps with
  | nil => intro w _ _; simp [run, emissions, errorsEmitted]
  | cons x steps ih =>
    intro w hc hp
    obtain ⟨f1, _, _, f4⟩ := step_frame (w, (⟨self, d⟩ : QPlaceManager)) x
    have hstep : run (w, ⟨self, d⟩) (x :: steps)
        = run ((step (w, (⟨self, d⟩ : QPlaceManager)) x).1, ⟨self, d⟩) steps := by
      show run (step (w, (⟨self, d⟩ : QPlaceManager)) x) steps = _
      congr 1
      exact Prod.ext rfl f4
    rw [hstep]
    cases x with
    | call req resp =>
      obtain ⟨r1, r2⟩ := delegate_relay ⟨self, d⟩ w pre hc hpre req resp
      have hw : (step (w, (⟨self, d⟩ : QPlaceManager)) (Step.call req resp)).1
          = ((⟨self, d⟩ : QPlaceManager).delegate w req resp).2.1 := by
        simp only [step, call_eq_delegate]
      rw [ih _ (f1.trans hc) (by
        rw [hw, r2]
        intro ev hev
        rcases List.mem_append.mp hev with h | h
        · exact hp ev h
        · exact queued_not_error self _ ev h)]
      rw [hw, errorsObserved_of_append w _ self _ r1, errors_of_direct]
      simp [emissions, errorsEmitted_append]
    | emission e =>
      obtain ⟨r1, r2⟩ := World.foldl_emit_relay d self pre hpre [e] w hc
      have hw : (step (w, (⟨self, d⟩ : QPlaceManager)) (Step.emission e)).1
          = [e].foldl (fun (w : World) e => w.emit d e) w := rfl
      rw [ih _ (f1.trans hc) (by
        rw [hw, r2]
        intro ev hev
        rcases List.mem_append.mp hev with h | h
        · exact hp ev h
        · exact queued_not_error self _ ev h)]
      rw [hw, errorsObserved_of_append w _ self _ r1, errors_of_direct]
      have : emissions (Step.emission e :: steps) = [e] ++ emissions steps := rfl
      rw [this, errorsEmitted_append, List.append_assoc]
    | turn =>
      have hw : (step (w, (⟨self, d⟩ : QPlaceManager)) Step.turn).1 = w.processEvents := rfl
      rw [ih _ (f1.trans hc) (by
        rw [hw]
        intro ev hev
        simp [World.processEvents, World.postedTo] at hev)]
      rw [hw, errorsObserved_of_append w _ self _ (processEvents_observedBy w self),
        errors_of_queued self _ _ _ hp]
      simp [emissions]

/-- C9, amended: a manager constructed on engine `d` in a world that does not
refer to the manager yet goes through any sequence of public calls, engine
emissions and event-loop turns.  The `error` signals its listeners have
observed are, in order, one per `error` emission of the engine, each carrying
the reply handle and the error code of that emission; the third argument of
the engine, the description, is not part of the connection signature
`error(QPlaceReply*,QPlaceReply::Error)` and is not passed on. -/
theorem errors_relayed (w0 : World) (self d : Nat) (hfresh : w0.isFresh self = true)
    (steps : List Step) :
    (worldAfter w0 self d steps).errorsObserved self = errorsEmitted (emissions steps) ∧
    (∀ args ∈ (worldAfter w0 self d steps).errorsObserved self,
      ∃ r c, args = [Arg.reply r, Arg.error c]) := by
  have hf := hfresh
  unfold World.isFresh at hf
  simp only [Bool.and_eq_true, List.all_eq_true, decide_eq_true_eq] at hf
  obtain ⟨⟨hcn, hpo⟩, hob⟩ := hf
  obtain ⟨_, c2, _, c4, c5, _⟩ := construct_some w0 self d
  have hposted : (construct w0 self (some d)).2.postedTo self = [] := by
    simp only [World.postedTo, c4, List.filter_eq_nil_iff]
    intro ev hev
    simpa using hpo ev hev
  have hobs : (construct w0 self (some d)).2.errorsObserved self = [] := by
    have : (construct w0 self (some d)).2.observedBy self = [] := by
      simp only [World.observedBy, c5, List.filter_eq_nil_iff]
      intro o ho
      simpa using hob o ho
    simp [World.errorsObserved, this]
  have main : (worldAfter w0 self d steps).errorsObserved self
      = errorsEmitted (emissions steps) := by
    unfold worldAfter
    rw [run_errors self d w0.connections hcn steps _ c2 (by rw [hposted]; simp), hobs]
    simp
  refine ⟨main, ?_⟩
  rw [main]
  intro args ha
  simp only [errorsEmitted, List.mem_filterMap] at ha
  obtain ⟨e, _, he⟩ := ha
  cases e <;> simp at he
  exact ⟨_, _, he.symm⟩

/-- Witness of C9, amended: `World.empty` does not refer to object 1; after the
failed search the listeners of the manager have observed one `error`, with
reply 9 and code 3. -/
theorem errors_relayed_witness :
    World.empty.isFresh 1 = true ∧
    (worldAfter World.empty 1 2 [Step.call (Request.search 5) failedSearch]).errorsObserved 1
      = [[Arg.reply 9, Arg.error 3]] :=
  ⟨by decide, (errors_relayed World.empty 1 2 (by decide)
    [Step.call (Request.search 5) failedSearch]).1⟩

end QPlaceManager

end QtLocation
